import Mathlib

/-!
Verification of the Vyaapaarai dashboard inventory and order lifecycle core.

The definitions below are a shallow embedding of `src/inventory_manager.py`
(`InventoryManagerV6`), `src/order_manager.py` (`OrderManagerV6`) and
`src/remainder_system.py` (`ReminderSystem`).  Python float quantities are
modelled as rationals, timestamps as integers, and the persistent store as
explicit record fields that every operation threads through.  Fallible
Python methods that raise are modelled with `Except`; methods that catch
exceptions internally and return a boolean keep a plain `Bool` result.
The write-then-verify re-read of `update_quantity` is kept: in the model the
store is deterministic, so the verification always observes the value just
written.  Audit timestamps (`updated_at` fields) carry no information used by
any property and are omitted from the records.
-/

namespace Vyaapaarai

/-- A product record as stored by the db layer: key fields plus `stock_qty`
(`float` in Python, modelled as a rational). -/
structure Product where
  merchant_id : String
  product_id : String
  product_name : String
  stock_qty : ℚ
deriving DecidableEq

/-- One entry of the append-only stock movement log, mirroring the document
built by `InventoryManagerV6._log_stock_movement`. -/
structure Movement where
  merchant_id : String
  product_id : String
  product_name : String
  movement_type : String
  quantity_change : ℚ
  old_stock : ℚ
  new_stock : ℚ
  role : String
deriving DecidableEq

/-- The inventory slice of the persistent store: the product collection and
the `stock_movements` collection (most recent entry first). -/
structure InvState where
  products : List Product
  movements : List Movement
deriving DecidableEq

/-- Python `abs` on a rational (an executable absolute value). -/
def ratAbs (x : ℚ) : ℚ := if x < 0 then -x else x

/-- Look up a product by `(merchant_id, product_id)`, as `db.get_product`
does (first match wins). -/
def findProduct : List Product → String → String → Option Product
  | [], _, _ => none
  | p :: ps, m, pid =>
    if p.merchant_id = m ∧ p.product_id = pid then some p
    else findProduct ps m pid

/-- Model of `db.update_product_stock`: overwrite the stock of the product with the
given key, keeping every other field and record. -/
def writeStockList : List Product → String → String → ℚ → List Product
  | [], _, _, _ => []
  | p :: ps, m, pid, v =>
    (if p.merchant_id = m ∧ p.product_id = pid then { p with stock_qty := v } else p)
      :: writeStockList ps m pid v

/-- Current stock of a product, `none` when the product does not exist. -/
def InvState.stockOf (s : InvState) (m pid : String) : Option ℚ :=
  (findProduct s.products m pid).map Product.stock_qty

/-- Model of `InventoryManagerV6.update_quantity`: atomically apply a relative stock
change.  Returns `false` without writing when the product is missing or when
a negative change would drive the stock below zero; otherwise writes
`max (current + change) 0`, re-reads to verify the write landed, and appends
one movement log entry.  (The surrounding Python `try/except` that turns
unexpected store errors into a `false` return is modelled separately by
`update_quantityE`.) -/
def update_quantity (s : InvState) (merchant_id product_id : String)
    (quantity_change : ℚ) (change_reason role : String) : Bool × InvState :=
  if quantity_change = 0 then (true, s)
  else
    match findProduct s.products merchant_id product_id with
    | none => (false, s)
    | some product =>
      let current_stock := product.stock_qty
      let new_stock := current_stock + quantity_change
      let final_stock := max new_stock 0
      if quantity_change < 0 ∧ new_stock < 0 then (false, s)
      else
        let s1 : InvState :=
          { s with products := writeStockList s.products merchant_id product_id final_stock }
        let verified_stock := (s1.stockOf merchant_id product_id).getD (-999)
        if (1 / 1000000 : ℚ) < ratAbs (verified_stock - final_stock) then (false, s1)
        else
          (true,
           { s1 with movements :=
              { merchant_id := merchant_id, product_id := product_id,
                product_name := product.product_name, movement_type := change_reason,
                quantity_change := quantity_change, old_stock := current_stock,
                new_stock := final_stock, role := role } :: s1.movements })

/-- Model of `InventoryManagerV6.deduct_stock`: sign-normalising wrapper that deducts
`|quantity|` via `update_quantity`; zero quantity is an immediate success. -/
def deduct_stock (s : InvState) (merchant_id product_id : String)
    (quantity : ℚ) (role : String) : Bool × InvState :=
  if quantity < 0 then
    update_quantity s merchant_id product_id (-(ratAbs quantity)) "deduction" role
  else if quantity = 0 then (true, s)
  else update_quantity s merchant_id product_id (-quantity) "deduction" role

/-- Model of `InventoryManagerV6.return_stock`: sign-normalising wrapper that adds
`|quantity|` back via `update_quantity`; zero quantity is an immediate
success. -/
def return_stock (s : InvState) (merchant_id product_id : String)
    (quantity : ℚ) (role : String) : Bool × InvState :=
  if quantity < 0 then
    update_quantity s merchant_id product_id (ratAbs quantity) "return" role
  else if quantity = 0 then (true, s)
  else update_quantity s merchant_id product_id quantity "return" role

/-- Model of `InventoryManagerV6.adjust_stock_admin`: set an absolute stock value
(clamped at zero), verify the write, and log a movement with the admin
role.  The separate admin audit record carries no stock information and is
not modelled. -/
def adjust_stock_admin (s : InvState) (merchant_id product_id : String)
    (new_stock : ℚ) (reason : String) : Bool × InvState :=
  match findProduct s.products merchant_id product_id with
  | none => (false, s)
  | some product =>
    let old_stock := product.stock_qty
    let final_new_stock := max new_stock 0
    let s1 : InvState :=
      { s with products := writeStockList s.products merchant_id product_id final_new_stock }
    let verified_stock := (s1.stockOf merchant_id product_id).getD (-999)
    if (1 / 1000000 : ℚ) < ratAbs (verified_stock - final_new_stock) then (false, s1)
    else
      (true,
       { s1 with movements :=
          { merchant_id := merchant_id, product_id := product_id,
            product_name := product.product_name, movement_type := reason,
            quantity_change := final_new_stock - old_stock, old_stock := old_stock,
            new_stock := final_new_stock, role := "admin" } :: s1.movements })

/-- Variant of `update_quantity` with a fallible store: the whole Python body runs in a
`try/except` block whose handler logs and returns `False`, so a store write
that raises surfaces to the caller as `Except.ok false`, never as
`Except.error`.  `store_raises` injects the store failure at the commit
step (the write does not land in that case). -/
def update_quantityE (store_raises : Bool) (s : InvState)
    (merchant_id product_id : String) (quantity_change : ℚ)
    (change_reason role : String) : Except String Bool × InvState :=
  if quantity_change = 0 then (Except.ok true, s)
  else
    match findProduct s.products merchant_id product_id with
    | none => (Except.ok false, s)
    | some product =>
      let current_stock := product.stock_qty
      let new_stock := current_stock + quantity_change
      let final_stock := max new_stock 0
      if quantity_change < 0 ∧ new_stock < 0 then (Except.ok false, s)
      else if store_raises then
        -- the store write raises here; the except handler catches the
        -- error, logs it, and returns False instead of re-raising
        (Except.ok false, s)
      else
        let s1 : InvState :=
          { s with products := writeStockList s.products merchant_id product_id final_stock }
        let verified_stock := (s1.stockOf merchant_id product_id).getD (-999)
        if (1 / 1000000 : ℚ) < ratAbs (verified_stock - final_stock) then (Except.ok false, s1)
        else
          (Except.ok true,
           { s1 with movements :=
              { merchant_id := merchant_id, product_id := product_id,
                product_name := product.product_name, movement_type := change_reason,
                quantity_change := quantity_change, old_stock := current_stock,
                new_stock := final_stock, role := role } :: s1.movements })

/-- One line item of an order / batch request.  `quantity` is `none` when the
Python item dict has no `quantity` key (malformed data). -/
structure Item where
  product_id : String
  product_name : String
  quantity : Option ℚ
deriving DecidableEq

/-- One per-item entry of the result list returned by `batch_deduct_stock`. -/
structure ItemResult where
  product_id : String
  success : Bool
  reason : Option String
deriving DecidableEq

/-- The insufficient-stock failure reason built by `batch_deduct_stock`
from a re-read of the current stock. -/
def insufficientReason (s : InvState) (merchant_id : String) (item : Item) (q : ℚ) : String :=
  match s.stockOf merchant_id item.product_id with
  | some c =>
    "Insufficient stock for " ++ item.product_name ++ ": needed " ++
      toString q ++ ", have " ++ toString c
  | none => "Insufficient stock for " ++ item.product_name

/-- Phase 1 of `InventoryManagerV6.batch_deduct_stock`: attempt the items
sequentially, stopping at the first failure.  Returns the per-item results,
the `(product_id, quantity)` list of successful deductions (for rollback),
the failure flag, and the inventory state reached. -/
def batchPhase1 (merchant_id role : String) :
    InvState → List Item → List ItemResult × List (String × ℚ) × Bool × InvState
  | s, [] => ([], [], false, s)
  | s, item :: rest =>
    match item.quantity with
    | none =>
      ([{ product_id := item.product_id, success := false,
          reason := some ("Invalid item data for " ++ item.product_name ++ ": missing quantity") }],
       [], true, s)
    | some q =>
      if q < 0 then
        ([{ product_id := item.product_id, success := false,
            reason := some ("Invalid item data for " ++ item.product_name ++ ": Negative quantity") }],
         [], true, s)
      else if q = 0 then
        let r := batchPhase1 merchant_id role s rest
        ({ product_id := item.product_id, success := true, reason := some "Zero quantity" } :: r.1,
         r.2.1, r.2.2.1, r.2.2.2)
      else
        let u := update_quantity s merchant_id item.product_id (-q) "batch_deduction" role
        if u.1 then
          let r := batchPhase1 merchant_id role u.2 rest
          ({ product_id := item.product_id, success := true, reason := none } :: r.1,
           (item.product_id, q) :: r.2.1, r.2.2.1, r.2.2.2)
        else
          ([{ product_id := item.product_id, success := false,
              reason := some (insufficientReason u.2 merchant_id item q) }],
           [], true, u.2)

/-- Phase 2 of `batch_deduct_stock`: compensating `update_quantity` calls
adding back every quantity deducted in this batch, in deduction order. -/
def rollbackAll (merchant_id role : String) : InvState → List (String × ℚ) → InvState
  | s, [] => s
  | s, (pid, q) :: rest =>
    rollbackAll merchant_id role
      (update_quantity s merchant_id pid q "batch_deduction_rollback" role).2 rest

/-- Model of `InventoryManagerV6.batch_deduct_stock`: sequential deduction with
rollback on first failure, plus `Batch stopped` result entries for every
item whose product id never made it into the per-item results. -/
def batch_deduct_stock (s : InvState) (merchant_id : String)
    (items : List Item) (role : String) : Bool × List ItemResult × InvState :=
  if items = [] then (true, [], s)
  else
    let r := batchPhase1 merchant_id role s items
    let results := r.1
    let succInfo := r.2.1
    let failed := r.2.2.1
    let s1 := r.2.2.2
    if failed then
      let s2 := rollbackAll merchant_id role s1 succInfo
      let processed := results.map ItemResult.product_id
      let extra :=
        (items.filter (fun it => decide (it.product_id ∉ processed))).map
          (fun it =>
            { product_id := it.product_id, success := false,
              reason := some "Batch stopped" : ItemResult })
      (false, results ++ extra, s2)
    else (true, results, s1)

/-- The compensating loop issued by `OrderManagerV6` paths (accept/approve
race rollback, cancellation rollback): one `update_quantity` call per order
item adding back `item.get("quantity", 0)`. -/
def rollbackItems (s : InvState) (merchant_id : String) (items : List Item)
    (change_reason role : String) : InvState :=
  match items with
  | [] => s
  | it :: rest =>
    rollbackItems
      (update_quantity s merchant_id it.product_id (it.quantity.getD 0) change_reason role).2
      merchant_id rest change_reason role

/-- The write operations of the Inventory Engine, for stating state
invariants over arbitrary operation sequences. -/
inductive InvOp where
  | update (merchant_id product_id : String) (quantity_change : ℚ) (change_reason role : String)
  | deduct (merchant_id product_id : String) (quantity : ℚ) (role : String)
  | ret (merchant_id product_id : String) (quantity : ℚ) (role : String)
  | batch (merchant_id : String) (items : List Item) (role : String)
  | adjust (merchant_id product_id : String) (new_stock : ℚ) (reason : String)

/-- Apply one Inventory Engine operation to the store, discarding the
operation's boolean/result outcome. -/
def applyInvOp (s : InvState) : InvOp → InvState
  | InvOp.update m pid qc cr ro => (update_quantity s m pid qc cr ro).2
  | InvOp.deduct m pid q ro => (deduct_stock s m pid q ro).2
  | InvOp.ret m pid q ro => (return_stock s m pid q ro).2
  | InvOp.batch m items ro => (batch_deduct_stock s m items ro).2.2
  | InvOp.adjust m pid v r => (adjust_stock_admin s m pid v r).2

/-- Run a sequence of Inventory Engine operations. -/
def applyInvOps (s : InvState) (ops : List InvOp) : InvState :=
  ops.foldl applyInvOp s

/-- Every stored product quantity is non-negative. -/
def InvNonneg (s : InvState) : Prop :=
  ∀ p ∈ s.products, 0 ≤ p.stock_qty

/-- The movement entry appended by a successful `update_quantity` call. -/
def uqMovement (m pid : String) (p : Product) (qc : ℚ) (cr ro : String) : Movement :=
  { merchant_id := m, product_id := pid, product_name := p.product_name,
    movement_type := cr, quantity_change := qc, old_stock := p.stock_qty,
    new_stock := max (p.stock_qty + qc) 0, role := ro }

/-- A well-formed, in-stock line item: the quantity key is present and
non-negative, the product exists, and the requested quantity does not
exceed the current stock. -/
abbrev itemOk (inv : InvState) (m : String) (it : Item) : Prop :=
  it.quantity ≠ none ∧ 0 ≤ it.quantity.getD 0 ∧
  inv.stockOf m it.product_id ≠ none ∧
  it.quantity.getD 0 ≤ (inv.stockOf m it.product_id).getD 0

/-! ### Order state machine (`src/order_manager.py`) -/

/-- One entry of an order's append-only timeline. -/
structure TimelineEntry where
  status : String
  timestamp : ℤ
  note : String
  actor : String
deriving DecidableEq

/-- An order document as stored by the db layer.  Status values are the
`OrderStatus` enum strings (`pending`, `accepted`, `declined`, `completed`,
`cancelled`, `expired`, `review`). -/
structure Order where
  order_id : String
  merchant_id : String
  items : List Item
  status : String
  inventory_deducted : Bool
  expiry_time : Option ℤ
  cancellation_reason : Option String
  cancelled_by : Option String
  approved_by_admin : Option String
  timeline : List TimelineEntry
deriving DecidableEq

/-- The system state seen by `OrderManagerV6`: the inventory slice plus the
order collection. -/
structure SysState where
  inv : InvState
  orders : List Order
deriving DecidableEq

/-- Model of `db.get_order`: look up an order by id (first match wins). -/
def findOrder : List Order → String → Option Order
  | [], _ => none
  | o :: os, oid => if o.order_id = oid then some o else findOrder os oid

/-- Model of `db.update_order`: rewrite the order with the given id in place. -/
def writeOrder : List Order → String → (Order → Order) → List Order
  | [], _, _ => []
  | o :: os, oid, f => (if o.order_id = oid then f o else o) :: writeOrder os oid f

/-- Update one order document inside the system state. -/
def SysState.setOrder (st : SysState) (oid : String) (f : Order → Order) : SysState :=
  { st with orders := writeOrder st.orders oid f }

/-- The expiry test performed by `accept_order`: true when the order has an
expiry time that `now` has reached. -/
def orderExpiredAt (o : Order) (now : ℤ) : Bool :=
  match o.expiry_time with
  | some t => decide (t ≤ now)
  | none => false

/-- Model of `OrderManagerV6.expire_order`: transition a pending-class order
(status `pending` or legacy `pending_confirmation`) to `expired` with one
timeline entry; on any other status it is a logged no-op returning the
order unchanged; a missing order raises. -/
def expire_order (st : SysState) (oid : String) (now : ℤ) :
    Except String (Option Order) × SysState :=
  if oid = "" then (Except.error "order_id required", st)
  else
    match findOrder st.orders oid with
    | none => (Except.error ("Order " ++ oid ++ " not found"), st)
    | some o =>
      if o.status = "pending" ∨ o.status = "pending_confirmation" then
        let o' : Order :=
          { o with status := "expired",
                   timeline := o.timeline ++
                     [{ status := "expired", timestamp := now,
                        note := "Order expired due to no merchant response",
                        actor := "system" }] }
        (Except.ok (some o'), st.setOrder oid (fun _ => o'))
      else (Except.ok (some o), st)

/-- Model of `OrderManagerV6.accept_order`.  Here `race_status` models the one concurrency
hole the code defends against: when it is `some ns`, a concurrent writer
sets the order's status to `ns` between the (lock-free) batch deduction and
the re-read performed inside the order-transition lock; `none` means no
interference.  On the race path the just-debited stock is added back and a
validation error is raised. -/
def accept_order (st : SysState) (oid mid : String) (acceptance_note : Option String)
    (now : ℤ) (race_status : Option String) : Except String Order × SysState :=
  if oid = "" ∨ mid = "" then (Except.error "order_id and merchant_id required", st)
  else
    match findOrder st.orders oid with
    | none => (Except.error ("Order " ++ oid ++ " not found"), st)
    | some o =>
      if o.merchant_id ≠ mid then
        (Except.error "Unauthorized: Order does not belong to merchant", st)
      else if o.status ≠ "pending" then
        (Except.error "Order is not in pending state", st)
      else if orderExpiredAt o now then
        (Except.error ("Order " ++ oid ++ " has expired"), (expire_order st oid now).2)
      else
        let items_to_deduct := o.items
        let bd := batch_deduct_stock st.inv mid items_to_deduct "merchant"
        if bd.1 = false then
          (Except.error "Inventory deduction failed", { st with inv := bd.2.2 })
        else
          let st1 : SysState := { st with inv := bd.2.2 }
          let st2 : SysState :=
            match race_status with
            | none => st1
            | some ns => st1.setOrder oid (fun od => { od with status := ns })
          match findOrder st2.orders oid with
          | none => (Except.error ("Order " ++ oid ++ " not found"), st2)
          | some o2 =>
            if o2.status ≠ "pending" then
              let inv' := rollbackItems st2.inv mid items_to_deduct
                "order_accept_race_condition_rollback" "merchant"
              (Except.error "Order state changed mid-process. Inventory rolled back.",
               { st2 with inv := inv' })
            else
              let o3 : Order :=
                { o2 with status := "accepted", inventory_deducted := true,
                          timeline := o2.timeline ++
                            [{ status := "accepted", timestamp := now,
                               note := acceptance_note.getD "Order accepted by merchant",
                               actor := "merchant" }] }
              (Except.ok o3, st2.setOrder oid (fun _ => o3))

/-- Model of `OrderManagerV6.approve_order_admin`: the admin mirror of
`accept_order`, accepting from `{pending, review}`, deducting with the
admin role, and stamping the admin actor.  `race_status` plays the same
role as in `accept_order`. -/
def approve_order_admin (st : SysState) (oid admin_user : String) (note : Option String)
    (now : ℤ) (race_status : Option String) : Except String Order × SysState :=
  if oid = "" ∨ admin_user = "" then (Except.error "order_id and admin_user required", st)
  else
    match findOrder st.orders oid with
    | none => (Except.error ("Order " ++ oid ++ " not found"), st)
    | some o =>
      if o.merchant_id = "" then
        (Except.error "Order missing merchant_id, cannot approve.", st)
      else if ¬(o.status = "pending" ∨ o.status = "review") then
        (Except.error "Order cannot be approved", st)
      else
        let items_to_deduct := o.items
        let bd := batch_deduct_stock st.inv o.merchant_id items_to_deduct "admin"
        if bd.1 = false then
          (Except.error "Inventory deduction failed", { st with inv := bd.2.2 })
        else
          let st1 : SysState := { st with inv := bd.2.2 }
          let st2 : SysState :=
            match race_status with
            | none => st1
            | some ns => st1.setOrder oid (fun od => { od with status := ns })
          match findOrder st2.orders oid with
          | none => (Except.error ("Order " ++ oid ++ " not found"), st2)
          | some o2 =>
            if ¬(o2.status = "pending" ∨ o2.status = "review") then
              let inv' := rollbackItems st2.inv o.merchant_id items_to_deduct
                "admin_approve_race_condition_rollback" "admin"
              (Except.error "Order state changed mid-process. Inventory rolled back.",
               { st2 with inv := inv' })
            else
              let o3 : Order :=
                { o2 with status := "accepted", inventory_deducted := true,
                          approved_by_admin := some admin_user,
                          timeline := o2.timeline ++
                            [{ status := "accepted", timestamp := now,
                               note := note.getD "Approved by admin",
                               actor := admin_user }] }
              (Except.ok o3, st2.setOrder oid (fun _ => o3))

/-- Model of `OrderManagerV6.cancel_order`.  When `inventory_deducted` is true the
compensating stock returns are issued; afterwards the code inspects the
gathered results with `r.get("success")`, but `update_quantity` returns a
plain boolean, so for a non-empty item list that inspection raises an
`AttributeError` which the surrounding `except` swallows — leaving
`inventory_returned = False` and the `inventory_deducted` flag NOT reset.
Only for an empty item list does the inspection succeed (vacuously) and the
flag get cleared.  This behaviour is modelled exactly. -/
def cancel_order (st : SysState) (oid cancellation_reason cancelled_by : String)
    (now : ℤ) : Except String Order × SysState :=
  if oid = "" ∨ cancellation_reason = "" then
    (Except.error "order_id and cancellation_reason required", st)
  else
    match findOrder st.orders oid with
    | none => (Except.error ("Order " ++ oid ++ " not found"), st)
    | some o =>
      if o.status = "completed" ∨ o.status = "cancelled" ∨ o.status = "expired" then
        (Except.error ("Order " ++ oid ++ " cannot be cancelled"), st)
      else
        let inv' :=
          if o.inventory_deducted then
            rollbackItems st.inv o.merchant_id o.items "order_cancellation_rollback" cancelled_by
          else st.inv
        -- the success inspection crashes on boolean results unless the
        -- rollback task list was empty
        let inventory_returned : Bool := o.inventory_deducted && o.items.isEmpty
        let o' : Order :=
          { o with status := "cancelled",
                   cancellation_reason := some cancellation_reason,
                   cancelled_by := some cancelled_by,
                   inventory_deducted :=
                     if inventory_returned then false else o.inventory_deducted,
                   timeline := o.timeline ++
                     [{ status := "cancelled", timestamp := now,
                        note := cancellation_reason, actor := cancelled_by }] }
        (Except.ok o',
         { inv := inv', orders := writeOrder st.orders oid (fun _ => o') })

/-! ### Reminder scheduler (`src/remainder_system.py`) -/

/-- The scan in `ReminderSystem._check_and_process_reminders`: walk the
configured reminder offsets in stored (ascending) order and pick the first
one whose elapsed-time threshold has been reached and that is not in the
order's sent-reminders set. -/
def findDueReminder (intervals sent : List ℚ) (hours_elapsed : ℚ) : Option ℚ :=
  match intervals with
  | [] => none
  | i :: rest =>
    if i ≤ hours_elapsed ∧ i ∉ sent then some i
    else findDueReminder rest sent hours_elapsed

/-- Mongo `$addToSet`: append an element only if it is not already present. -/
def addToSet (l : List ℚ) (x : ℚ) : List ℚ :=
  if x ∈ l then l else l ++ [x]

/-- Model of `ReminderSystem._check_and_process_reminders` for one order in one
polling cycle: at most one reminder is sent (`.1`), and its offset is
recorded in the sent set (`.2`) only when the send succeeded
(`send_ok`). -/
def check_and_process_reminders (intervals sent : List ℚ) (hours_elapsed : ℚ)
    (send_ok : Bool) : Option ℚ × List ℚ :=
  match findDueReminder intervals sent hours_elapsed with
  | none => (none, sent)
  | some i => if send_ok then (some i, addToSet sent i) else (some i, sent)

/-! ### Store-level lemmas -/

theorem findProduct_writeStockList_self (ps : List Product) (m pid : String) (v : ℚ) :
    findProduct (writeStockList ps m pid v) m pid =
      (findProduct ps m pid).map (fun p => { p with stock_qty := v }) := by
  induction ps with
  | nil => rfl
  | cons p ps ih =>
    by_cases h : p.merchant_id = m ∧ p.product_id = pid
    · simp [writeStockList, findProduct, h]
    · simp [writeStockList, findProduct, h, ih]

theorem findProduct_writeStockList_ne (ps : List Product) (m pid m' pid' : String) (v : ℚ)
    (h : ¬(m' = m ∧ pid' = pid)) :
    findProduct (writeStockList ps m pid v) m' pid' = findProduct ps m' pid' := by
  induction ps with
  | nil => rfl
  | cons p ps ih =>
    by_cases hp : p.merchant_id = m ∧ p.product_id = pid
    · have hne : ¬(p.merchant_id = m' ∧ p.product_id = pid') := by
        rintro ⟨h1, h2⟩
        exact h ⟨h1.symm.trans hp.1, h2.symm.trans hp.2⟩
      have hne2 : ¬(m = m' ∧ pid = pid') := by
        rintro ⟨h1, h2⟩
        exact h ⟨h1.symm, h2.symm⟩
      simp [writeStockList, findProduct, hp, hne, hne2, ih]
    · simp [writeStockList, findProduct, hp, ih]

theorem writeStockList_nonneg (ps : List Product) (m pid : String) (v : ℚ)
    (hps : ∀ p ∈ ps, 0 ≤ p.stock_qty) (hv : 0 ≤ v) :
    ∀ p ∈ writeStockList ps m pid v, 0 ≤ p.stock_qty := by
  induction ps with
  | nil => simp [writeStockList]
  | cons p ps ih =>
    intro q hq
    rw [writeStockList] at hq
    rcases List.mem_cons.mp hq with h | h
    · subst h
      split
      · exact hv
      · exact hps p (List.mem_cons_self _ _)
    · exact ih (fun r hr => hps r (List.mem_cons_of_mem _ hr)) q h

/-! ### `update_quantity` characterisation -/

theorem update_quantity_zero (s : InvState) (m pid : String) (cr ro : String) :
    update_quantity s m pid 0 cr ro = (true, s) := by
  simp [update_quantity]

theorem update_quantity_not_found (s : InvState) (m pid : String) (qc : ℚ) (cr ro : String)
    (h : findProduct s.products m pid = none) (hqc : qc ≠ 0) :
    update_quantity s m pid qc cr ro = (false, s) := by
  simp [update_quantity, hqc, h]

theorem update_quantity_insufficient (s : InvState) (m pid : String) (qc : ℚ) (cr ro : String)
    (p : Product) (hp : findProduct s.products m pid = some p)
    (h1 : qc < 0) (h2 : p.stock_qty + qc < 0) :
    update_quantity s m pid qc cr ro = (false, s) := by
  have hqc : qc ≠ 0 := ne_of_lt h1
  simp [update_quantity, hqc, hp, h1, h2]

theorem update_quantity_success (s : InvState) (m pid : String) (qc : ℚ) (cr ro : String)
    (p : Product) (hp : findProduct s.products m pid = some p) (hqc : qc ≠ 0)
    (h : ¬(qc < 0 ∧ p.stock_qty + qc < 0)) :
    update_quantity s m pid qc cr ro =
      (true,
       { products := writeStockList s.products m pid (max (p.stock_qty + qc) 0),
         movements := uqMovement m pid p qc cr ro :: s.movements }) := by
  have hread :
      findProduct (writeStockList s.products m pid (max (p.stock_qty + qc) 0)) m pid =
        some { p with stock_qty := max (p.stock_qty + qc) 0 } := by
    rw [findProduct_writeStockList_self, hp]; rfl
  simp only [update_quantity, hqc, if_false, hp]
  rw [if_neg h]
  simp only [InvState.stockOf, hread, Option.map_some, Option.getD_some]
  rw [if_neg (by simp [ratAbs])]
  rfl

/-- Any outcome of `update_quantity` leaves the stock of every other
product key unchanged. -/
theorem update_quantity_frame (s : InvState) (m pid : String) (qc : ℚ) (cr ro : String)
    (m' pid' : String) (h : ¬(m' = m ∧ pid' = pid)) :
    ((update_quantity s m pid qc cr ro).2).stockOf m' pid' = s.stockOf m' pid' := by
  by_cases hqc : qc = 0
  · subst hqc; rw [update_quantity_zero]
  · cases hp : findProduct s.products m pid with
    | none => rw [update_quantity_not_found s m pid qc cr ro hp hqc]
    | some p =>
      by_cases hin : qc < 0 ∧ p.stock_qty + qc < 0
      · rw [update_quantity_insufficient s m pid qc cr ro p hp hin.1 hin.2]
      · rw [update_quantity_success s m pid qc cr ro p hp hqc hin]
        simp only [InvState.stockOf]
        rw [findProduct_writeStockList_ne _ _ _ _ _ _ h]

/-- After a successful `update_quantity`, the touched product holds exactly
the clamped new value. -/
theorem update_quantity_stock_self (s : InvState) (m pid : String) (qc : ℚ) (cr ro : String)
    (p : Product) (hp : findProduct s.products m pid = some p) (hqc : qc ≠ 0)
    (h : ¬(qc < 0 ∧ p.stock_qty + qc < 0)) :
    ((update_quantity s m pid qc cr ro).2).stockOf m pid = some (max (p.stock_qty + qc) 0) := by
  rw [update_quantity_success s m pid qc cr ro p hp hqc h]
  simp only [InvState.stockOf]
  rw [findProduct_writeStockList_self, hp]
  rfl

/-- Lemma: `update_quantity` preserves non-negativity of every stored quantity. -/
theorem update_quantity_nonneg (s : InvState) (m pid : String) (qc : ℚ) (cr ro : String)
    (hs : InvNonneg s) : InvNonneg ((update_quantity s m pid qc cr ro).2) := by
  by_cases hqc : qc = 0
  · subst hqc; rw [update_quantity_zero]; exact hs
  · cases hp : findProduct s.products m pid with
    | none => rw [update_quantity_not_found s m pid qc cr ro hp hqc]; exact hs
    | some p =>
      by_cases hin : qc < 0 ∧ p.stock_qty + qc < 0
      · rw [update_quantity_insufficient s m pid qc cr ro p hp hin.1 hin.2]; exact hs
      · rw [update_quantity_success s m pid qc cr ro p hp hqc hin]
        exact writeStockList_nonneg s.products m pid _ hs (le_max_right _ _)

/-! ### `adjust_stock_admin` characterisation -/

theorem adjust_stock_admin_not_found (s : InvState) (m pid : String) (v : ℚ) (r : String)
    (h : findProduct s.products m pid = none) :
    adjust_stock_admin s m pid v r = (false, s) := by
  simp [adjust_stock_admin, h]

theorem adjust_stock_admin_success (s : InvState) (m pid : String) (v : ℚ) (r : String)
    (p : Product) (hp : findProduct s.products m pid = some p) :
    adjust_stock_admin s m pid v r =
      (true,
       { products := writeStockList s.products m pid (max v 0),
         movements :=
           { merchant_id := m, product_id := pid, product_name := p.product_name,
             movement_type := r, quantity_change := max v 0 - p.stock_qty,
             old_stock := p.stock_qty, new_stock := max v 0,
             role := "admin" } :: s.movements }) := by
  have hread :
      findProduct (writeStockList s.products m pid (max v 0)) m pid =
        some { p with stock_qty := max v 0 } := by
    rw [findProduct_writeStockList_self, hp]; rfl
  simp only [adjust_stock_admin, hp]
  simp only [InvState.stockOf, hread, Option.map_some, Option.getD_some]
  rw [if_neg (by simp [ratAbs])]

theorem adjust_stock_admin_nonneg (s : InvState) (m pid : String) (v : ℚ) (r : String)
    (hs : InvNonneg s) : InvNonneg ((adjust_stock_admin s m pid v r).2) := by
  cases hp : findProduct s.products m pid with
  | none => rw [adjust_stock_admin_not_found s m pid v r hp]; exact hs
  | some p =>
    rw [adjust_stock_admin_success s m pid v r p hp]
    exact writeStockList_nonneg s.products m pid _ hs (le_max_right _ _)

/-! ### Non-negativity through every Inventory Engine operation -/

theorem deduct_stock_nonneg (s : InvState) (m pid : String) (q : ℚ) (ro : String)
    (hs : InvNonneg s) : InvNonneg ((deduct_stock s m pid q ro).2) := by
  rw [deduct_stock]
  split
  · exact update_quantity_nonneg _ _ _ _ _ _ hs
  · split
    · exact hs
    · exact update_quantity_nonneg _ _ _ _ _ _ hs

theorem return_stock_nonneg (s : InvState) (m pid : String) (q : ℚ) (ro : String)
    (hs : InvNonneg s) : InvNonneg ((return_stock s m pid q ro).2) := by
  rw [return_stock]
  split
  · exact update_quantity_nonneg _ _ _ _ _ _ hs
  · split
    · exact hs
    · exact update_quantity_nonneg _ _ _ _ _ _ hs

theorem batchPhase1_nonneg (m ro : String) (items : List Item) :
    ∀ s : InvState, InvNonneg s → InvNonneg (batchPhase1 m ro s items).2.2.2 := by
  induction items with
  | nil => intro s hs; exact hs
  | cons it rest ih =>
    intro s hs
    rw [batchPhase1]
    cases hq : it.quantity with
    | none => exact hs
    | some q =>
      simp only
      split
      · exact hs
      · split
        · exact ih s hs
        · split
          · exact ih _ (update_quantity_nonneg _ _ _ _ _ _ hs)
          · exact update_quantity_nonneg _ _ _ _ _ _ hs

theorem rollbackAll_nonneg (m ro : String) (info : List (String × ℚ)) :
    ∀ s : InvState, InvNonneg s → InvNonneg (rollbackAll m ro s info) := by
  induction info with
  | nil => intro s hs; exact hs
  | cons e rest ih =>
    intro s hs
    rw [rollbackAll]
    exact ih _ (update_quantity_nonneg _ _ _ _ _ _ hs)

theorem batch_deduct_stock_nonneg (s : InvState) (m : String) (items : List Item)
    (ro : String) (hs : InvNonneg s) : InvNonneg (batch_deduct_stock s m items ro).2.2 := by
  rw [batch_deduct_stock]
  split
  · exact hs
  · simp only
    split
    · exact rollbackAll_nonneg _ _ _ _ (batchPhase1_nonneg m ro items s hs)
    · exact batchPhase1_nonneg m ro items s hs

theorem applyInvOp_nonneg (s : InvState) (op : InvOp) (hs : InvNonneg s) :
    InvNonneg (applyInvOp s op) := by
  cases op with
  | update m pid qc cr ro => exact update_quantity_nonneg s m pid qc cr ro hs
  | deduct m pid q ro => exact deduct_stock_nonneg s m pid q ro hs
  | ret m pid q ro => exact return_stock_nonneg s m pid q ro hs
  | batch m items ro => exact batch_deduct_stock_nonneg s m items ro hs
  | adjust m pid v r => exact adjust_stock_admin_nonneg s m pid v r hs

/-- C2: starting from a state in which every product quantity is
non-negative, any sequence of Inventory Engine operations
(`update_quantity`, `deduct_stock`, `return_stock`, `batch_deduct_stock`,
`adjust_stock_admin`) leaves every product quantity non-negative: every
written value is clamped with `max · 0` and a deduction that would go below
zero is rejected before writing. -/
theorem claim_C2_stock_nonneg (s : InvState) (ops : List InvOp) (hs : InvNonneg s) :
    InvNonneg (applyInvOps s ops) := by
  induction ops generalizing s with
  | nil => exact hs
  | cons op rest ih => exact ih _ (applyInvOp_nonneg s op hs)

/-- Witness for C2: a concrete run mixing a deduction, an admin adjustment
to a negative target, and an over-deduction keeps all stocks
non-negative. -/
theorem claim_C2_witness :
    InvNonneg { products := [{ merchant_id := "m", product_id := "p",
                               product_name := "P", stock_qty := 5 }],
                movements := [] } ∧
    InvNonneg (applyInvOps
      { products := [{ merchant_id := "m", product_id := "p",
                       product_name := "P", stock_qty := 5 }],
        movements := [] }
      [InvOp.deduct "m" "p" 3 "merchant",
       InvOp.adjust "m" "p" (-7) "manual_adjustment",
       InvOp.update "m" "p" (-10) "order_update" "merchant"]) :=
  ⟨by unfold InvNonneg; decide,
   claim_C2_stock_nonneg _ _ (by unfold InvNonneg; decide)⟩

/-- C10: a zero quantity change is an immediate no-op success for
`update_quantity`, and `deduct_stock` / `return_stock` with quantity zero
return true without touching the store: no stock write and no movement log
entry (the returned state is exactly the input state). -/
theorem claim_C10_zero_change_noop (s : InvState) (m pid : String) (cr ro : String) :
    update_quantity s m pid 0 cr ro = (true, s) ∧
    deduct_stock s m pid 0 ro = (true, s) ∧
    return_stock s m pid 0 ro = (true, s) := by
  refine ⟨update_quantity_zero s m pid cr ro, ?_, ?_⟩ <;>
    simp [deduct_stock, return_stock]

/-- C3 (amended): for a product with current quantity `current` and every
NONZERO delta, `update_quantity` returns false and leaves the state
untouched (no write, no movement entry) when `delta < 0` and
`current + delta < 0`; otherwise it writes exactly `max (current + delta) 0`
and appends one movement entry recording the old and new quantity.  (A zero
delta short-circuits to a true return with no write and no log entry — see
the counterexample.) -/
theorem claim_C3_update_quantity_behaviour (s : InvState) (m pid : String) (qc : ℚ)
    (cr ro : String) (p : Product)
    (hp : findProduct s.products m pid = some p) (hqc : qc ≠ 0) :
    (qc < 0 → p.stock_qty + qc < 0 → update_quantity s m pid qc cr ro = (false, s)) ∧
    (¬(qc < 0 ∧ p.stock_qty + qc < 0) →
      update_quantity s m pid qc cr ro =
        (true,
         { products := writeStockList s.products m pid (max (p.stock_qty + qc) 0),
           movements := uqMovement m pid p qc cr ro :: s.movements })) :=
  ⟨fun h1 h2 => update_quantity_insufficient s m pid qc cr ro p hp h1 h2,
   fun h => update_quantity_success s m pid qc cr ro p hp hqc h⟩

/-- C3 counterexample: with delta = 0 the code returns true immediately and
appends NO movement log entry, while the claim (quantified over every
delta) asserts one movement entry is appended in every non-failing case. -/
theorem claim_C3_counterexample :
    update_quantity
        { products := [{ merchant_id := "m", product_id := "p",
                         product_name := "P", stock_qty := 5 }], movements := [] }
        "m" "p" 0 "order_update" "merchant" =
      (true,
       { products := [{ merchant_id := "m", product_id := "p",
                        product_name := "P", stock_qty := 5 }], movements := [] }) ∧
    (update_quantity
        { products := [{ merchant_id := "m", product_id := "p",
                         product_name := "P", stock_qty := 5 }], movements := [] }
        "m" "p" 0 "order_update" "merchant").2.movements.length = 0 := by
  constructor <;> decide

/-- Witness for C3: deducting 2 from a stock of 5 writes 3 and appends one
movement entry recording old stock 5 and new stock 3. -/
theorem claim_C3_witness :
    update_quantity
        { products := [{ merchant_id := "m", product_id := "p",
                         product_name := "P", stock_qty := 5 }], movements := [] }
        "m" "p" (-2) "order_update" "merchant" =
      (true,
       { products := writeStockList
           [{ merchant_id := "m", product_id := "p",
              product_name := "P", stock_qty := 5 }] "m" "p" (max (5 + (-2)) 0),
         movements := [uqMovement "m" "p"
           { merchant_id := "m", product_id := "p",
             product_name := "P", stock_qty := 5 } (-2) "order_update" "merchant"] }) :=
  (claim_C3_update_quantity_behaviour _ "m" "p" (-2) "order_update" "merchant"
      { merchant_id := "m", product_id := "p", product_name := "P", stock_qty := 5 }
      (by decide) (by norm_num)).2 (by norm_num)

/-! ### C7: exception behaviour of `update_quantity` -/

theorem update_quantityE_run_false (s : InvState) (m pid : String) (qc : ℚ)
    (cr ro : String) :
    update_quantityE false s m pid qc cr ro =
      (Except.ok (update_quantity s m pid qc cr ro).1,
       (update_quantity s m pid qc cr ro).2) := by
  by_cases hqc : qc = 0
  · simp [update_quantityE, update_quantity, hqc]
  · cases hp : findProduct s.products m pid with
    | none => simp [update_quantityE, update_quantity, hqc, hp]
    | some p =>
      by_cases hin : qc < 0 ∧ p.stock_qty + qc < 0
      · simp [update_quantityE, update_quantity, hqc, hp, hin]
      · rw [update_quantity_success s m pid qc cr ro p hp hqc hin]
        have hread :
            findProduct (writeStockList s.products m pid (max (p.stock_qty + qc) 0)) m pid =
              some { p with stock_qty := max (p.stock_qty + qc) 0 } := by
          rw [findProduct_writeStockList_self, hp]; rfl
        simp only [update_quantityE, hqc, if_false, hp]
        rw [if_neg hin]
        simp [InvState.stockOf, hread, uqMovement, ratAbs]

theorem update_quantityE_run_true (s : InvState) (m pid : String) (qc : ℚ)
    (cr ro : String) (hqc : qc ≠ 0) :
    update_quantityE true s m pid qc cr ro = (Except.ok false, s) := by
  cases hp : findProduct s.products m pid with
  | none => simp [update_quantityE, hqc, hp]
  | some p =>
    by_cases hin : qc < 0 ∧ p.stock_qty + qc < 0
    · simp [update_quantityE, hqc, hp, hin]
    · simp only [update_quantityE, hqc, if_false, hp]
      rw [if_neg hin]
      simp

/-- C7 (amended): `update_quantity` never lets an exception escape: every
outcome is a boolean return.  Insufficient stock yields a false return
without writing, and an unexpected store error during the update is caught
by the method's exception handler, logged, and reported as a false return
value — not re-raised to the caller. -/
theorem claim_C7_update_quantity_catches (sr : Bool) (s : InvState) (m pid : String)
    (qc : ℚ) (cr ro : String) :
    (∃ b, (update_quantityE sr s m pid qc cr ro).1 = Except.ok b) ∧
    (sr = true → qc ≠ 0 → update_quantityE sr s m pid qc cr ro = (Except.ok false, s)) ∧
    (∀ p, findProduct s.products m pid = some p → qc < 0 → p.stock_qty + qc < 0 →
      update_quantityE sr s m pid qc cr ro = (Except.ok false, s)) := by
  refine ⟨?_, ?_, ?_⟩
  · cases sr with
    | false => exact ⟨_, by rw [update_quantityE_run_false]⟩
    | true =>
      by_cases hqc : qc = 0
      · exact ⟨true, by simp [update_quantityE, hqc]⟩
      · exact ⟨false, by rw [update_quantityE_run_true s m pid qc cr ro hqc]⟩
  · rintro rfl hqc
    exact update_quantityE_run_true s m pid qc cr ro hqc
  · intro p hp h1 h2
    cases sr with
    | false =>
      rw [update_quantityE_run_false,
        update_quantity_insufficient s m pid qc cr ro p hp h1 h2]
    | true => exact update_quantityE_run_true s m pid qc cr ro (ne_of_lt h1)

/-- C7 counterexample: when the store raises during the update of an
in-stock product, the code returns the boolean `false` (`Except.ok false`),
it does not propagate the error as a raised exception, contradicting the
claim that unexpected store errors are re-raised to the caller. -/
theorem claim_C7_counterexample :
    update_quantityE true
        { products := [{ merchant_id := "m", product_id := "p",
                         product_name := "P", stock_qty := 5 }], movements := [] }
        "m" "p" (-2) "deduction" "merchant" =
      (Except.ok false,
       { products := [{ merchant_id := "m", product_id := "p",
                        product_name := "P", stock_qty := 5 }], movements := [] }) :=
  update_quantityE_run_true _ "m" "p" (-2) "deduction" "merchant" (by norm_num)

/-- Witness for C7: the amended theorem applied with the store raising on a
concrete in-stock product, and at an insufficient-stock input. -/
theorem claim_C7_witness :
    update_quantityE true
        { products := [{ merchant_id := "m", product_id := "p",
                         product_name := "P", stock_qty := 5 }], movements := [] }
        "m" "p" (-3) "deduction" "merchant" =
      (Except.ok false,
       { products := [{ merchant_id := "m", product_id := "p",
                        product_name := "P", stock_qty := 5 }], movements := [] }) ∧
    update_quantityE false
        { products := [{ merchant_id := "m", product_id := "p",
                         product_name := "P", stock_qty := 5 }], movements := [] }
        "m" "p" (-9) "deduction" "merchant" =
      (Except.ok false,
       { products := [{ merchant_id := "m", product_id := "p",
                        product_name := "P", stock_qty := 5 }], movements := [] }) :=
  ⟨(claim_C7_update_quantity_catches true
      { products := [{ merchant_id := "m", product_id := "p",
                       product_name := "P", stock_qty := 5 }], movements := [] }
      "m" "p" (-3) "deduction" "merchant").2.1 rfl (by norm_num),
   (claim_C7_update_quantity_catches false
      { products := [{ merchant_id := "m", product_id := "p",
                       product_name := "P", stock_qty := 5 }], movements := [] }
      "m" "p" (-9) "deduction" "merchant").2.2
      { merchant_id := "m", product_id := "p", product_name := "P", stock_qty := 5 }
      (by decide) (by norm_num) (by norm_num)⟩

/-! ### Batch deduction: step equations for `batchPhase1` -/

theorem stockOf_eq_some_iff (s : InvState) (m pid : String) (c : ℚ) :
    s.stockOf m pid = some c ↔
      ∃ p, findProduct s.products m pid = some p ∧ p.stock_qty = c := by
  simp [InvState.stockOf]

theorem batchPhase1_nil (m ro : String) (s : InvState) :
    batchPhase1 m ro s [] = ([], [], false, s) := rfl

theorem batchPhase1_cons_noqty (m ro : String) (s : InvState) (it : Item)
    (rest : List Item) (hq : it.quantity = none) :
    batchPhase1 m ro s (it :: rest) =
      ([{ product_id := it.product_id, success := false,
          reason := some ("Invalid item data for " ++ it.product_name ++ ": missing quantity") }],
       [], true, s) := by
  simp [batchPhase1, hq]

theorem batchPhase1_cons_neg (m ro : String) (s : InvState) (it : Item)
    (rest : List Item) (q : ℚ) (hq : it.quantity = some q) (hlt : q < 0) :
    batchPhase1 m ro s (it :: rest) =
      ([{ product_id := it.product_id, success := false,
          reason := some ("Invalid item data for " ++ it.product_name ++ ": Negative quantity") }],
       [], true, s) := by
  simp [batchPhase1, hq, hlt]

theorem batchPhase1_cons_zero (m ro : String) (s : InvState) (it : Item)
    (rest : List Item) (hq : it.quantity = some 0) :
    batchPhase1 m ro s (it :: rest) =
      ({ product_id := it.product_id, success := true, reason := some "Zero quantity" } ::
         (batchPhase1 m ro s rest).1,
       (batchPhase1 m ro s rest).2.1, (batchPhase1 m ro s rest).2.2.1,
       (batchPhase1 m ro s rest).2.2.2) := by
  simp [batchPhase1, hq]

theorem batchPhase1_cons_pos_success (m ro : String) (s s1 : InvState) (it : Item)
    (rest : List Item) (q : ℚ) (hq : it.quantity = some q) (hpos : 0 < q)
    (hu : update_quantity s m it.product_id (-q) "batch_deduction" ro = (true, s1)) :
    batchPhase1 m ro s (it :: rest) =
      ({ product_id := it.product_id, success := true, reason := none } ::
         (batchPhase1 m ro s1 rest).1,
       (it.product_id, q) :: (batchPhase1 m ro s1 rest).2.1,
       (batchPhase1 m ro s1 rest).2.2.1, (batchPhase1 m ro s1 rest).2.2.2) := by
  have h1 : ¬q < 0 := not_lt.mpr (le_of_lt hpos)
  have h2 : ¬q = 0 := (ne_of_gt hpos)
  simp [batchPhase1, hq, h1, h2, hu]

theorem batchPhase1_cons_pos_fail (m ro : String) (s s1 : InvState) (it : Item)
    (rest : List Item) (q : ℚ) (hq : it.quantity = some q) (hpos : 0 < q)
    (hu : update_quantity s m it.product_id (-q) "batch_deduction" ro = (false, s1)) :
    batchPhase1 m ro s (it :: rest) =
      ([{ product_id := it.product_id, success := false,
          reason := some (insufficientReason s1 m it q) }],
       [], true, s1) := by
  have h1 : ¬q < 0 := not_lt.mpr (le_of_lt hpos)
  have h2 : ¬q = 0 := (ne_of_gt hpos)
  simp [batchPhase1, hq, h1, h2, hu]

/-! ### Inversion lemmas for `update_quantity` outcomes -/

theorem update_quantity_false_inv (s : InvState) (m pid : String) (qc : ℚ)
    (cr ro : String) (s1 : InvState)
    (h : update_quantity s m pid qc cr ro = (false, s1)) : s1 = s := by
  by_cases hqc : qc = 0
  · rw [hqc, update_quantity_zero] at h; simp at h
  · cases hp : findProduct s.products m pid with
    | none =>
      rw [update_quantity_not_found s m pid qc cr ro hp hqc] at h
      injection h with h1 h2; exact h2.symm
    | some p =>
      by_cases hin : qc < 0 ∧ p.stock_qty + qc < 0
      · rw [update_quantity_insufficient s m pid qc cr ro p hp hin.1 hin.2] at h
        injection h with h1 h2; exact h2.symm
      · rw [update_quantity_success s m pid qc cr ro p hp hqc hin] at h
        simp at h

theorem update_quantity_true_inv (s : InvState) (m pid : String) (qc : ℚ)
    (cr ro : String) (s1 : InvState) (hqc : qc ≠ 0)
    (h : update_quantity s m pid qc cr ro = (true, s1)) :
    ∃ p, findProduct s.products m pid = some p ∧ ¬(qc < 0 ∧ p.stock_qty + qc < 0) ∧
      s1.stockOf m pid = some (max (p.stock_qty + qc) 0) ∧
      (∀ m' pid', ¬(m' = m ∧ pid' = pid) → s1.stockOf m' pid' = s.stockOf m' pid') := by
  cases hp : findProduct s.products m pid with
  | none =>
    rw [update_quantity_not_found s m pid qc cr ro hp hqc] at h; simp at h
  | some p =>
    by_cases hin : qc < 0 ∧ p.stock_qty + qc < 0
    · rw [update_quantity_insufficient s m pid qc cr ro p hp hin.1 hin.2] at h
      simp at h
    · refine ⟨p, rfl, hin, ?_, ?_⟩
      · have hs := update_quantity_stock_self s m pid qc cr ro p hp hqc hin
        rwa [h] at hs
      · intro m' pid' hne
        have hf := update_quantity_frame s m pid qc cr ro m' pid' hne
        rwa [h] at hf

/-! ### Batch deduction: the main inductions -/

theorem batchPhase1_reasons (m ro : String) (items : List Item) :
    ∀ s : InvState, ∀ r ∈ (batchPhase1 m ro s items).1,
      r.success = false → r.reason.isSome := by
  induction items with
  | nil => intro s r hr; rw [batchPhase1_nil] at hr; simp at hr
  | cons it rest ih =>
    intro s r hr hfail
    cases hq : it.quantity with
    | none =>
      rw [batchPhase1_cons_noqty m ro s it rest hq] at hr
      simp at hr; subst hr; simp
    | some q =>
      rcases lt_trichotomy q 0 with hlt | hz | hpos
      · rw [batchPhase1_cons_neg m ro s it rest q hq hlt] at hr
        simp at hr; subst hr; simp
      · subst hz
        rw [batchPhase1_cons_zero m ro s it rest hq] at hr
        rcases List.mem_cons.mp hr with h | h
        · subst h; simp at hfail
        · exact ih s r h hfail
      · rcases hu : update_quantity s m it.product_id (-q) "batch_deduction" ro with ⟨b, s1⟩
        cases b
        · rw [batchPhase1_cons_pos_fail m ro s s1 it rest q hq hpos hu] at hr
          simp at hr; subst hr; simp
        · rw [batchPhase1_cons_pos_success m ro s s1 it rest q hq hpos hu] at hr
          rcases List.mem_cons.mp hr with h | h
          · subst h; simp at hfail
          · exact ih s1 r h hfail

theorem batchPhase1_prefix (m ro : String) (items : List Item) :
    ∀ s : InvState, ∃ pre post, items = pre ++ post ∧
      (batchPhase1 m ro s items).1.map ItemResult.product_id = pre.map Item.product_id ∧
      ((batchPhase1 m ro s items).2.2.1 = false → post = []) := by
  induction items with
  | nil => intro s; exact ⟨[], [], rfl, by simp [batchPhase1_nil], fun _ => rfl⟩
  | cons it rest ih =>
    intro s
    cases hq : it.quantity with
    | none =>
      refine ⟨[it], rest, rfl, ?_, ?_⟩ <;>
        rw [batchPhase1_cons_noqty m ro s it rest hq] <;> simp
    | some q =>
      rcases lt_trichotomy q 0 with hlt | hz | hpos
      · refine ⟨[it], rest, rfl, ?_, ?_⟩ <;>
          rw [batchPhase1_cons_neg m ro s it rest q hq hlt] <;> simp
      · subst hz
        rcases ih s with ⟨pre, post, hsplit, hmap, hpost⟩
        refine ⟨it :: pre, post, by rw [hsplit]; rfl, ?_, ?_⟩
        · rw [batchPhase1_cons_zero m ro s it rest hq]
          simpa using hmap
        · rw [batchPhase1_cons_zero m ro s it rest hq]
          exact hpost
      · rcases hu : update_quantity s m it.product_id (-q) "batch_deduction" ro with ⟨b, s1⟩
        cases b
        · refine ⟨[it], rest, rfl, ?_, ?_⟩ <;>
            rw [batchPhase1_cons_pos_fail m ro s s1 it rest q hq hpos hu] <;> simp
        · rcases ih s1 with ⟨pre, post, hsplit, hmap, hpost⟩
          refine ⟨it :: pre, post, by rw [hsplit]; rfl, ?_, ?_⟩
          · rw [batchPhase1_cons_pos_success m ro s s1 it rest q hq hpos hu]
            simpa using hmap
          · rw [batchPhase1_cons_pos_success m ro s s1 it rest q hq hpos hu]
            exact hpost

/-- Master invariant of phase 1: every recorded deduction took a positive
quantity from a sufficient pre-state stock, leaving exactly `c - q` behind;
the recorded product ids are distinct and drawn from the item list; and
every other product key is untouched. -/
theorem batchPhase1_deductions (m ro : String) (items : List Item) :
    ∀ s : InvState, (items.map Item.product_id).Nodup →
      (∀ e ∈ (batchPhase1 m ro s items).2.1,
          0 < e.2 ∧ ∃ c, s.stockOf m e.1 = some c ∧ e.2 ≤ c ∧
            ((batchPhase1 m ro s items).2.2.2).stockOf m e.1 = some (c - e.2)) ∧
      (((batchPhase1 m ro s items).2.1).map Prod.fst).Nodup ∧
      (((batchPhase1 m ro s items).2.1).map Prod.fst ⊆ items.map Item.product_id) ∧
      (∀ m' pid', ¬(m' = m ∧ pid' ∈ ((batchPhase1 m ro s items).2.1).map Prod.fst) →
          ((batchPhase1 m ro s items).2.2.2).stockOf m' pid' = s.stockOf m' pid') := by
  induction items with
  | nil =>
    intro s _
    refine ⟨by simp [batchPhase1_nil], by simp [batchPhase1_nil],
      by simp [batchPhase1_nil], fun m' pid' _ => by simp [batchPhase1_nil]⟩
  | cons it rest ih =>
    intro s hnd
    rw [List.map_cons, List.nodup_cons] at hnd
    obtain ⟨hnotin, hnd'⟩ := hnd
    cases hq : it.quantity with
    | none =>
      rw [batchPhase1_cons_noqty m ro s it rest hq]
      exact ⟨by simp, by simp, by simp, fun m' pid' _ => rfl⟩
    | some q =>
      rcases lt_trichotomy q 0 with hlt | hz | hpos
      · rw [batchPhase1_cons_neg m ro s it rest q hq hlt]
        exact ⟨by simp, by simp, by simp, fun m' pid' _ => rfl⟩
      · subst hz
        rw [batchPhase1_cons_zero m ro s it rest hq]
        obtain ⟨ha, hb, hc, hd⟩ := ih s hnd'
        refine ⟨ha, hb, ?_, hd⟩
        intro x hx
        exact List.mem_cons_of_mem _ (hc hx)
      · rcases hu : update_quantity s m it.product_id (-q) "batch_deduction" ro with ⟨b, s1⟩
        cases b
        · have hs1 : s1 = s := update_quantity_false_inv s m it.product_id (-q) _ _ s1 hu
          rw [batchPhase1_cons_pos_fail m ro s s1 it rest q hq hpos hu, hs1]
          exact ⟨by simp, by simp, by simp, fun m' pid' _ => rfl⟩
        · have hqne : (-q : ℚ) ≠ 0 := neg_ne_zero.mpr (ne_of_gt hpos)
          obtain ⟨p, hp, hin, hself, hframe⟩ :=
            update_quantity_true_inv s m it.product_id (-q) "batch_deduction" ro s1 hqne hu
          have hqlec : q ≤ p.stock_qty := by
            by_contra hgt
            exact hin ⟨neg_lt_zero.mpr hpos, by linarith [not_le.mp hgt]⟩
          have hmax : max (p.stock_qty + -q) 0 = p.stock_qty - q := by
            rw [← sub_eq_add_neg]
            exact max_eq_left (by linarith)
          have hself' : s1.stockOf m it.product_id = some (p.stock_qty - q) := by
            rw [hself, hmax]
          rw [batchPhase1_cons_pos_success m ro s s1 it rest q hq hpos hu]
          obtain ⟨ha, hb, hc, hd⟩ := ih s1 hnd'
          have hpid_notin : it.product_id ∉ ((batchPhase1 m ro s1 rest).2.1).map Prod.fst :=
            fun hmem => hnotin (hc hmem)
          refine ⟨?_, ?_, ?_, ?_⟩
          · intro e he
            rcases List.mem_cons.mp he with h | h
            · subst h
              refine ⟨hpos, p.stock_qty, ?_, hqlec, ?_⟩
              · simp [InvState.stockOf, hp]
              · have := hd m it.product_id (fun hcon => hpid_notin hcon.2)
                rw [this, hself']
            · obtain ⟨hpos_e, c_e, hc_e, hle_e, hfin_e⟩ := ha e h
              refine ⟨hpos_e, c_e, ?_, hle_e, hfin_e⟩
              have hne : ¬(m = m ∧ e.1 = it.product_id) := by
                rintro ⟨_, heq⟩
                exact hnotin (heq ▸ hc (List.mem_map_of_mem Prod.fst h))
              rw [← hframe m e.1 hne]
              exact hc_e
          · rw [List.map_cons, List.nodup_cons]
            exact ⟨hpid_notin, hb⟩
          · rw [List.map_cons, List.map_cons]
            intro x hx
            rcases List.mem_cons.mp hx with h | h
            · exact h ▸ List.mem_cons_self _ _
            · exact List.mem_cons_of_mem _ (hc h)
          · intro m' pid' hn
            rw [List.map_cons] at hn
            have hn1 : ¬(m' = m ∧ pid' = it.product_id) := by
              rintro ⟨h1, h2⟩
              exact hn ⟨h1, h2 ▸ List.mem_cons_self _ _⟩
            have hn2 : ¬(m' = m ∧ pid' ∈ ((batchPhase1 m ro s1 rest).2.1).map Prod.fst) := by
              rintro ⟨h1, h2⟩
              exact hn ⟨h1, List.mem_cons_of_mem _ h2⟩
            rw [hd m' pid' hn2, hframe m' pid' hn1]

/-- The compensating rollback of phase 2 restores every product key to its
exact pre-batch stock. -/
theorem rollbackAll_restores (m ro : String) (info : List (String × ℚ)) :
    ∀ s0 s1 : InvState, (info.map Prod.fst).Nodup →
      (∀ e ∈ info, 0 < e.2 ∧ ∃ c, s0.stockOf m e.1 = some c ∧ e.2 ≤ c ∧
          s1.stockOf m e.1 = some (c - e.2)) →
      (∀ m' pid', ¬(m' = m ∧ pid' ∈ info.map Prod.fst) →
          s1.stockOf m' pid' = s0.stockOf m' pid') →
      ∀ m' pid', (rollbackAll m ro s1 info).stockOf m' pid' = s0.stockOf m' pid' := by
  induction info with
  | nil =>
    intro s0 s1 _ _ hframe m' pid'
    rw [rollbackAll]
    exact hframe m' pid' (by simp)
  | cons e rest ih =>
    intro s0 s1 hnd hfacts hframe m' pid'
    rw [List.map_cons, List.nodup_cons] at hnd
    obtain ⟨hnotin, hnd'⟩ := hnd
    obtain ⟨hpos, c, hc0, hle, hc1⟩ := hfacts e (List.mem_cons_self _ _)
    obtain ⟨p1, hp1, hstk⟩ := (stockOf_eq_some_iff s1 m e.1 (c - e.2)).mp hc1
    have hqne : e.2 ≠ 0 := ne_of_gt hpos
    have hnin : ¬(e.2 < 0 ∧ p1.stock_qty + e.2 < 0) := by
      rintro ⟨hltz, _⟩
      exact absurd hltz (not_lt.mpr (le_of_lt hpos))
    have hmax : max (p1.stock_qty + e.2) 0 = c := by
      rw [hstk, sub_add_cancel]
      exact max_eq_left (by linarith)
    have hself : ((update_quantity s1 m e.1 e.2 "batch_deduction_rollback" ro).2).stockOf m e.1 =
        some c := by
      rw [update_quantity_stock_self s1 m e.1 e.2 "batch_deduction_rollback" ro p1 hp1 hqne hnin,
        hmax]
    rw [rollbackAll]
    refine ih s0 _ hnd' ?_ ?_ m' pid'
    · intro e' he'
      obtain ⟨hpos', c', hc0', hle', hc1'⟩ := hfacts e' (List.mem_cons_of_mem _ he')
      refine ⟨hpos', c', hc0', hle', ?_⟩
      have hne : ¬(m = m ∧ e'.1 = e.1) := by
        rintro ⟨_, heq⟩
        exact hnotin (heq ▸ List.mem_map_of_mem Prod.fst he')
      rw [update_quantity_frame s1 m e.1 e.2 "batch_deduction_rollback" ro m e'.1 hne]
      exact hc1'
    · intro m2 pid2 hn2
      by_cases hcase : m2 = m ∧ pid2 = e.1
      · obtain ⟨rfl, rfl⟩ := hcase
        rw [hself, hc0]
      · rw [update_quantity_frame s1 m e.1 e.2 "batch_deduction_rollback" ro m2 pid2 hcase]
        refine hframe m2 pid2 ?_
        rintro ⟨h1, h2⟩
        rw [List.map_cons] at h2
        rcases List.mem_cons.mp h2 with h | h
        · exact hcase ⟨h1, h⟩
        · exact hn2 ⟨h1, h⟩

/-- Phase 1 succeeds on a list of distinct, well-formed, in-stock items,
deducting exactly the requested quantity from every listed product and
touching nothing else. -/
theorem batchPhase1_success (m ro : String) (items : List Item) :
    ∀ s : InvState, (items.map Item.product_id).Nodup →
      (∀ it ∈ items, itemOk s m it) →
      (batchPhase1 m ro s items).2.2.1 = false ∧
      (∀ it ∈ items, ((batchPhase1 m ro s items).2.2.2).stockOf m it.product_id =
          some ((s.stockOf m it.product_id).getD 0 - it.quantity.getD 0)) ∧
      (∀ m' pid', ¬(m' = m ∧ pid' ∈ items.map Item.product_id) →
          ((batchPhase1 m ro s items).2.2.2).stockOf m' pid' = s.stockOf m' pid') := by
  induction items with
  | nil =>
    intro s _ _
    exact ⟨rfl, by simp, fun m' pid' _ => by rw [batchPhase1_nil]⟩
  | cons it rest ih =>
    intro s hnd hok
    rw [List.map_cons, List.nodup_cons] at hnd
    obtain ⟨hnotin, hnd'⟩ := hnd
    obtain ⟨hqne, hq0, hsne, hle⟩ := hok it (List.mem_cons_self _ _)
    obtain ⟨q, hq⟩ := Option.ne_none_iff_exists'.mp hqne
    obtain ⟨c, hc⟩ := Option.ne_none_iff_exists'.mp hsne
    have hgq : it.quantity.getD 0 = q := by rw [hq]; rfl
    have hgc : (s.stockOf m it.product_id).getD 0 = c := by rw [hc]; rfl
    rw [hgq] at hq0 hle
    rw [hgc] at hle
    rcases eq_or_lt_of_le hq0 with hz | hpos
    · -- zero-quantity item: reported as success, nothing deducted
      have hq' : it.quantity = some 0 := by rw [hq, ← hz]
      rw [batchPhase1_cons_zero m ro s it rest hq']
      obtain ⟨hfl, hstocks, hframe⟩ := ih s hnd' (fun it' hit' => hok it' (List.mem_cons_of_mem _ hit'))
      refine ⟨hfl, ?_, ?_⟩
      · intro it' hit'
        rcases List.mem_cons.mp hit' with h | h
        · rw [h, hframe m it.product_id (fun hcon => hnotin hcon.2), hc, hgq]
          simp [← hz]
        · exact hstocks it' h
      · intro m' pid' hn
        rw [List.map_cons] at hn
        exact hframe m' pid' (fun ⟨h1, h2⟩ => hn ⟨h1, List.mem_cons_of_mem _ h2⟩)
    · -- positive quantity: the deduction succeeds
      obtain ⟨p, hp, hpstk⟩ := (stockOf_eq_some_iff s m it.product_id c).mp hc
      have hqne2 : (-q : ℚ) ≠ 0 := neg_ne_zero.mpr (ne_of_gt hpos)
      have hnin : ¬((-q : ℚ) < 0 ∧ p.stock_qty + -q < 0) := by
        rintro ⟨_, habs⟩
        rw [hpstk] at habs
        linarith
      have hu := update_quantity_success s m it.product_id (-q) "batch_deduction" ro p hp hqne2 hnin
      have hu1 : update_quantity s m it.product_id (-q) "batch_deduction" ro =
          (true, (update_quantity s m it.product_id (-q) "batch_deduction" ro).2) := by
        rw [hu]
      rw [batchPhase1_cons_pos_success m ro s _ it rest q hq hpos hu1]
      have hs1self : ((update_quantity s m it.product_id (-q) "batch_deduction" ro).2).stockOf
          m it.product_id = some (c - q) := by
        rw [update_quantity_stock_self s m it.product_id (-q) "batch_deduction" ro p hp hqne2 hnin]
        rw [hpstk, ← sub_eq_add_neg, max_eq_left (by linarith)]
      have hs1frame : ∀ m' pid', ¬(m' = m ∧ pid' = it.product_id) →
          ((update_quantity s m it.product_id (-q) "batch_deduction" ro).2).stockOf m' pid' =
            s.stockOf m' pid' :=
        fun m' pid' hne => update_quantity_frame s m it.product_id (-q) _ _ m' pid' hne
      have hok1 : ∀ it' ∈ rest,
          itemOk (update_quantity s m it.product_id (-q) "batch_deduction" ro).2 m it' := by
        intro it' hit'
        obtain ⟨ha, hb, hcc, hd⟩ := hok it' (List.mem_cons_of_mem _ hit')
        have hne : ¬(m = m ∧ it'.product_id = it.product_id) := by
          rintro ⟨_, heq⟩
          exact hnotin (heq ▸ List.mem_map_of_mem Item.product_id hit')
        refine ⟨ha, hb, ?_, ?_⟩ <;> rw [hs1frame m it'.product_id hne]
        · exact hcc
        · exact hd
      obtain ⟨hfl, hstocks, hframe⟩ := ih _ hnd' hok1
      refine ⟨hfl, ?_, ?_⟩
      · intro it' hit'
        rcases List.mem_cons.mp hit' with h | h
        · rw [h, hframe m it.product_id (fun hcon => hnotin hcon.2), hs1self, hgq, hgc]
        · have hne : ¬(m = m ∧ it'.product_id = it.product_id) := by
            rintro ⟨_, heq⟩
            exact hnotin (heq ▸ List.mem_map_of_mem Item.product_id h)
          rw [hstocks it' h, hs1frame m it'.product_id hne]
      · intro m' pid' hn
        rw [List.map_cons] at hn
        have hn1 : ¬(m' = m ∧ pid' = it.product_id) := by
          rintro ⟨h1, h2⟩
          exact hn ⟨h1, h2 ▸ List.mem_cons_self _ _⟩
        have hn2 : ¬(m' = m ∧ pid' ∈ rest.map Item.product_id) := by
          rintro ⟨h1, h2⟩
          exact hn ⟨h1, List.mem_cons_of_mem _ h2⟩
        rw [hframe m' pid' hn2, hs1frame m' pid' hn1]

/-- Lemma: `batch_deduct_stock` on distinct, available items: success, exact
per-product deduction, and no effect on any other product. -/
theorem batch_deduct_stock_success (s : InvState) (m : String) (items : List Item)
    (ro : String) (hnd : (items.map Item.product_id).Nodup)
    (hok : ∀ it ∈ items, itemOk s m it) :
    (batch_deduct_stock s m items ro).1 = true ∧
    (∀ it ∈ items, ((batch_deduct_stock s m items ro).2.2).stockOf m it.product_id =
        some ((s.stockOf m it.product_id).getD 0 - it.quantity.getD 0)) ∧
    (∀ m' pid', ¬(m' = m ∧ pid' ∈ items.map Item.product_id) →
        ((batch_deduct_stock s m items ro).2.2).stockOf m' pid' = s.stockOf m' pid') := by
  by_cases hempty : items = []
  · subst hempty
    exact ⟨by simp [batch_deduct_stock], by simp, fun m' pid' _ => by simp [batch_deduct_stock]⟩
  · obtain ⟨hfl, hstocks, hframe⟩ := batchPhase1_success m ro items s hnd hok
    have hbd : batch_deduct_stock s m items ro =
        (true, (batchPhase1 m ro s items).1, (batchPhase1 m ro s items).2.2.2) := by
      simp [batch_deduct_stock, hempty, hfl]
    rw [hbd]
    exact ⟨rfl, hstocks, hframe⟩

/-- C4 (amended): for every item list with pairwise-distinct product ids
(the shape of order line items, which carts build with one line per
product), when `batch_deduct_stock` fails it stops at the first failing
item, returns success = false, yields exactly one per-item result for
every line (each unsuccessful one carrying a reason), and restores every
product to its exact pre-call stock.  Without the distinctness assumption a
line skipped after the failure whose product id already occurs among the
results receives no entry of its own (see the counterexample). -/
theorem claim_C4_batch_failure_rollback (s : InvState) (m : String) (items : List Item)
    (ro : String) (hnd : (items.map Item.product_id).Nodup)
    (hfail : (batch_deduct_stock s m items ro).1 = false) :
    (∀ r ∈ (batch_deduct_stock s m items ro).2.1, r.success = false → r.reason.isSome) ∧
    ((batch_deduct_stock s m items ro).2.1).length = items.length ∧
    (∀ it ∈ items, ∃ r ∈ (batch_deduct_stock s m items ro).2.1,
        r.product_id = it.product_id) ∧
    (∀ m' pid', ((batch_deduct_stock s m items ro).2.2).stockOf m' pid' =
        s.stockOf m' pid') := by
  have hne : items ≠ [] := by
    intro h
    rw [h] at hfail
    simp [batch_deduct_stock] at hfail
  cases hbl : (batchPhase1 m ro s items).2.2.1 with
  | false => rw [batch_deduct_stock] at hfail; simp [hne, hbl] at hfail
  | true =>
    have hbd : batch_deduct_stock s m items ro =
        (false,
         (batchPhase1 m ro s items).1 ++
           (items.filter (fun it => decide (it.product_id ∉
               (batchPhase1 m ro s items).1.map ItemResult.product_id))).map
             (fun it =>
               { product_id := it.product_id, success := false,
                 reason := some "Batch stopped" : ItemResult }),
         rollbackAll m ro (batchPhase1 m ro s items).2.2.2
           (batchPhase1 m ro s items).2.1) := by
      simp [batch_deduct_stock, hne, hbl]
    obtain ⟨pre, post, hsplit, hmap, _⟩ := batchPhase1_prefix m ro items s
    have hnd2 := hnd
    rw [hsplit, List.map_append, List.nodup_append] at hnd2
    obtain ⟨hnp, hnq, hdisj⟩ := hnd2
    have hfilter : items.filter (fun it => decide (it.product_id ∉
        (batchPhase1 m ro s items).1.map ItemResult.product_id)) = post := by
      simp only [hmap]
      rw [hsplit, List.filter_append]
      have h1 : pre.filter (fun it => decide (it.product_id ∉
          pre.map Item.product_id)) = [] := by
        rw [List.filter_eq_nil_iff]
        intro a ha
        simp only [decide_eq_true_eq, not_not]
        exact List.mem_map_of_mem Item.product_id ha
      have h2 : post.filter (fun it => decide (it.product_id ∉
          pre.map Item.product_id)) = post := by
        rw [List.filter_eq_self]
        intro a ha
        simp only [decide_eq_true_eq]
        exact fun hpre => hdisj hpre (List.mem_map_of_mem Item.product_id ha)
      rw [h1, h2, List.nil_append]
    have hreslen : ((batchPhase1 m ro s items).1).length = pre.length := by
      have := congrArg List.length hmap
      simpa using this
    refine ⟨?_, ?_, ?_, ?_⟩
    · intro r hr hf
      rw [hbd] at hr
      rcases List.mem_append.mp hr with h | h
      · exact batchPhase1_reasons m ro items s r h hf
      · obtain ⟨a, _, rfl⟩ := List.mem_map.mp h
        simp
    · rw [hbd]
      simp only [List.length_append, List.length_map, hfilter, hreslen]
      rw [hsplit]
      simp
    · intro it hit
      rw [hbd]
      rw [hsplit] at hit
      rcases List.mem_append.mp hit with h | h
      · have : it.product_id ∈ ((batchPhase1 m ro s items).1).map ItemResult.product_id := by
          rw [hmap]
          exact List.mem_map_of_mem Item.product_id h
        obtain ⟨r, hr, hrid⟩ := List.mem_map.mp this
        exact ⟨r, List.mem_append_left _ hr, hrid⟩
      · refine ⟨⟨it.product_id, false, some "Batch stopped"⟩, ?_, rfl⟩
        refine List.mem_append_right _ ?_
        refine List.mem_map.mpr ⟨it, ?_, rfl⟩
        rw [hfilter]
        exact h
    · intro m' pid'
      rw [hbd]
      obtain ⟨hfacts, hinfo_nd, _, hframe⟩ := batchPhase1_deductions m ro items s hnd
      exact rollbackAll_restores m ro (batchPhase1 m ro s items).2.1
        s (batchPhase1 m ro s items).2.2.2 hinfo_nd hfacts hframe m' pid'

/-- C4 counterexample: with duplicate product ids (product p on lines 1 and
3, a malformed line 2), the batch fails at line 2 and the third line gets NO
result entry at all — the result list has 2 entries for 3 items, so there is
no per-item result with a reason for every failing line as the claim
(quantified over every item list) requires. -/
theorem claim_C4_counterexample :
    (batch_deduct_stock
        { products := [{ merchant_id := "m", product_id := "p",
                         product_name := "Pn", stock_qty := 5 },
                       { merchant_id := "m", product_id := "q",
                         product_name := "Qn", stock_qty := 5 }], movements := [] }
        "m"
        [{ product_id := "p", product_name := "Pn", quantity := some 1 },
         { product_id := "q", product_name := "Qn", quantity := none },
         { product_id := "p", product_name := "Pn", quantity := some 1 }]
        "merchant").1 = false ∧
    ((batch_deduct_stock
        { products := [{ merchant_id := "m", product_id := "p",
                         product_name := "Pn", stock_qty := 5 },
                       { merchant_id := "m", product_id := "q",
                         product_name := "Qn", stock_qty := 5 }], movements := [] }
        "m"
        [{ product_id := "p", product_name := "Pn", quantity := some 1 },
         { product_id := "q", product_name := "Qn", quantity := none },
         { product_id := "p", product_name := "Pn", quantity := some 1 }]
        "merchant").2.1).length = 2 := by
  constructor <;>
    norm_num +decide [batch_deduct_stock, batchPhase1, update_quantity, findProduct,
      writeStockList, InvState.stockOf, ratAbs, rollbackAll, insufficientReason]

/-- Witness for C4: two distinct items, the second with an excessive
quantity; the batch fails, every line gets a result with a reason where
unsuccessful, and the first item's deducted stock is restored. -/
theorem claim_C4_witness :
    (∀ r ∈ (batch_deduct_stock
        { products := [{ merchant_id := "m", product_id := "a",
                         product_name := "A", stock_qty := 5 },
                       { merchant_id := "m", product_id := "b",
                         product_name := "B", stock_qty := 3 }], movements := [] }
        "m"
        [{ product_id := "a", product_name := "A", quantity := some 2 },
         { product_id := "b", product_name := "B", quantity := some 99 }]
        "merchant").2.1, r.success = false → r.reason.isSome) ∧
    ((batch_deduct_stock
        { products := [{ merchant_id := "m", product_id := "a",
                         product_name := "A", stock_qty := 5 },
                       { merchant_id := "m", product_id := "b",
                         product_name := "B", stock_qty := 3 }], movements := [] }
        "m"
        [{ product_id := "a", product_name := "A", quantity := some 2 },
         { product_id := "b", product_name := "B", quantity := some 99 }]
        "merchant").2.1).length =
      ([{ product_id := "a", product_name := "A", quantity := some 2 },
        { product_id := "b", product_name := "B", quantity := some 99 }] : List Item).length ∧
    (∀ it ∈ ([{ product_id := "a", product_name := "A", quantity := some 2 },
              { product_id := "b", product_name := "B", quantity := some 99 }] : List Item),
        ∃ r ∈ (batch_deduct_stock
          { products := [{ merchant_id := "m", product_id := "a",
                           product_name := "A", stock_qty := 5 },
                         { merchant_id := "m", product_id := "b",
                           product_name := "B", stock_qty := 3 }], movements := [] }
          "m"
          [{ product_id := "a", product_name := "A", quantity := some 2 },
           { product_id := "b", product_name := "B", quantity := some 99 }]
          "merchant").2.1, r.product_id = it.product_id) ∧
    (∀ m' pid', ((batch_deduct_stock
        { products := [{ merchant_id := "m", product_id := "a",
                         product_name := "A", stock_qty := 5 },
                       { merchant_id := "m", product_id := "b",
                         product_name := "B", stock_qty := 3 }], movements := [] }
        "m"
        [{ product_id := "a", product_name := "A", quantity := some 2 },
         { product_id := "b", product_name := "B", quantity := some 99 }]
        "merchant").2.2).stockOf m' pid' =
      (InvState.stockOf
        { products := [{ merchant_id := "m", product_id := "a",
                         product_name := "A", stock_qty := 5 },
                       { merchant_id := "m", product_id := "b",
                         product_name := "B", stock_qty := 3 }], movements := [] }) m' pid') :=
  claim_C4_batch_failure_rollback _ "m" _ "merchant" (by decide)
    (by norm_num +decide [batch_deduct_stock, batchPhase1, update_quantity, findProduct,
      writeStockList, InvState.stockOf, ratAbs, rollbackAll, insufficientReason])

/-! ### Order layer lemmas -/

theorem findOrder_id (os : List Order) (oid : String) (o : Order)
    (ho : findOrder os oid = some o) : o.order_id = oid := by
  induction os with
  | nil => simp [findOrder] at ho
  | cons o1 os ih =>
    by_cases h : o1.order_id = oid
    · rw [findOrder, if_pos h] at ho
      injection ho with ho
      subst ho
      exact h
    · rw [findOrder, if_neg h] at ho
      exact ih ho

theorem findOrder_writeOrder_self (os : List Order) (oid : String) (f : Order → Order)
    (o : Order) (ho : findOrder os oid = some o) (hf : (f o).order_id = oid) :
    findOrder (writeOrder os oid f) oid = some (f o) := by
  induction os with
  | nil => simp [findOrder] at ho
  | cons o1 os ih =>
    by_cases h : o1.order_id = oid
    · rw [findOrder, if_pos h] at ho
      injection ho with ho
      subst ho
      simp [writeOrder, findOrder, h, hf]
    · rw [findOrder, if_neg h] at ho
      simp only [writeOrder, findOrder, if_neg h]
      exact ih ho

/-- The order-manager compensating loop (`rollbackItems`) restores every
product key to its stock from before a successful batch deduction of the
same items. -/
theorem rollbackItems_restores (m cr ro : String) (items : List Item) :
    ∀ s0 s1 : InvState, (items.map Item.product_id).Nodup →
      (∀ it ∈ items, itemOk s0 m it) →
      (∀ it ∈ items, s1.stockOf m it.product_id =
          some ((s0.stockOf m it.product_id).getD 0 - it.quantity.getD 0)) →
      (∀ m' pid', ¬(m' = m ∧ pid' ∈ items.map Item.product_id) →
          s1.stockOf m' pid' = s0.stockOf m' pid') →
      ∀ m' pid', (rollbackItems s1 m items cr ro).stockOf m' pid' = s0.stockOf m' pid' := by
  induction items with
  | nil =>
    intro s0 s1 _ _ _ hframe m' pid'
    rw [rollbackItems]
    exact hframe m' pid' (by simp)
  | cons it rest ih =>
    intro s0 s1 hnd hok hstocks hframe m' pid'
    rw [List.map_cons, List.nodup_cons] at hnd
    obtain ⟨hnotin, hnd'⟩ := hnd
    obtain ⟨hqne, hq0, hsne, hle⟩ := hok it (List.mem_cons_self _ _)
    obtain ⟨q, hq⟩ := Option.ne_none_iff_exists'.mp hqne
    obtain ⟨c, hc⟩ := Option.ne_none_iff_exists'.mp hsne
    have hgq : it.quantity.getD 0 = q := by rw [hq]; rfl
    have hgc : (s0.stockOf m it.product_id).getD 0 = c := by rw [hc]; rfl
    rw [hgq] at hq0 hle
    rw [hgc] at hle
    have hs1 : s1.stockOf m it.product_id = some (c - q) := by
      rw [hstocks it (List.mem_cons_self _ _), hgq, hgc]
    rw [rollbackItems, hgq]
    rcases eq_or_lt_of_le hq0 with hz | hpos
    · -- zero quantity: the compensating update is itself a no-op
      rw [← hz, update_quantity_zero]
      refine ih s0 s1 hnd' (fun a ha => hok a (List.mem_cons_of_mem _ ha))
        (fun a ha => hstocks a (List.mem_cons_of_mem _ ha)) ?_ m' pid'
      intro m2 pid2 hn2
      by_cases hcase : m2 = m ∧ pid2 = it.product_id
      · obtain ⟨rfl, rfl⟩ := hcase
        rw [hs1, hc, ← hz, sub_zero]
      · refine hframe m2 pid2 ?_
        rintro ⟨h1, h2⟩
        rw [List.map_cons] at h2
        rcases List.mem_cons.mp h2 with h | h
        · exact hcase ⟨h1, h⟩
        · exact hn2 ⟨h1, h⟩
    · obtain ⟨p1, hp1, hstk⟩ := (stockOf_eq_some_iff s1 m it.product_id (c - q)).mp hs1
      have hqne2 : q ≠ 0 := ne_of_gt hpos
      have hnin : ¬(q < 0 ∧ p1.stock_qty + q < 0) := by
        rintro ⟨hltz, _⟩
        exact absurd hltz (not_lt.mpr (le_of_lt hpos))
      have hself : ((update_quantity s1 m it.product_id q cr ro).2).stockOf m it.product_id =
          some c := by
        rw [update_quantity_stock_self s1 m it.product_id q cr ro p1 hp1 hqne2 hnin,
          hstk, sub_add_cancel]
        rw [max_eq_left (by linarith)]
      refine ih s0 _ hnd' (fun a ha => hok a (List.mem_cons_of_mem _ ha)) ?_ ?_ m' pid'
      · intro a ha
        have hne : ¬(m = m ∧ a.product_id = it.product_id) := by
          rintro ⟨_, heq⟩
          exact hnotin (heq ▸ List.mem_map_of_mem Item.product_id ha)
        rw [update_quantity_frame s1 m it.product_id q cr ro m a.product_id hne]
        exact hstocks a (List.mem_cons_of_mem _ ha)
      · intro m2 pid2 hn2
        by_cases hcase : m2 = m ∧ pid2 = it.product_id
        · obtain ⟨rfl, rfl⟩ := hcase
          rw [hself, hc]
        · rw [update_quantity_frame s1 m it.product_id q cr ro m2 pid2 hcase]
          refine hframe m2 pid2 ?_
          rintro ⟨h1, h2⟩
          rw [List.map_cons] at h2
          rcases List.mem_cons.mp h2 with h | h
          · exact hcase ⟨h1, h⟩
          · exact hn2 ⟨h1, h⟩

/-- C1: for a pending, unexpired order of merchant M whose (distinct) line
items are all available in stock, `accept_order` succeeds; afterwards every
listed product's stock is reduced by exactly the requested quantity, and
the stored order has status `accepted`, `inventory_deducted = true`, and
one appended ACCEPTED timeline entry. -/
theorem claim_C1_accept_order (st : SysState) (oid mid : String) (note : Option String)
    (now : ℤ) (o : Order)
    (hoid : oid ≠ "") (hmid : mid ≠ "")
    (ho : findOrder st.orders oid = some o)
    (hm : o.merchant_id = mid)
    (hs : o.status = "pending")
    (hexp : orderExpiredAt o now = false)
    (hnd : (o.items.map Item.product_id).Nodup)
    (hok : ∀ it ∈ o.items, itemOk st.inv mid it) :
    ∃ st', accept_order st oid mid note now none =
      (Except.ok
        { o with status := "accepted", inventory_deducted := true,
                 timeline := o.timeline ++
                   [{ status := "accepted", timestamp := now,
                      note := note.getD "Order accepted by merchant",
                      actor := "merchant" }] }, st') ∧
      findOrder st'.orders oid =
        some { o with status := "accepted", inventory_deducted := true,
                      timeline := o.timeline ++
                        [{ status := "accepted", timestamp := now,
                           note := note.getD "Order accepted by merchant",
                           actor := "merchant" }] } ∧
      (∀ it ∈ o.items, st'.inv.stockOf mid it.product_id =
          some ((st.inv.stockOf mid it.product_id).getD 0 - it.quantity.getD 0)) ∧
      (∀ m' pid', ¬(m' = mid ∧ pid' ∈ o.items.map Item.product_id) →
          st'.inv.stockOf m' pid' = st.inv.stockOf m' pid') := by
  obtain ⟨hb1, hstocks, hframe⟩ := batch_deduct_stock_success st.inv mid o.items "merchant" hnd hok
  have hcond1 : ¬(oid = "" ∨ mid = "") := by
    rintro (h | h)
    · exact hoid h
    · exact hmid h
  refine ⟨{ inv := (batch_deduct_stock st.inv mid o.items "merchant").2.2,
            orders := writeOrder st.orders oid (fun _ =>
              { o with status := "accepted", inventory_deducted := true,
                       timeline := o.timeline ++
                         [{ status := "accepted", timestamp := now,
                            note := note.getD "Order accepted by merchant",
                            actor := "merchant" }] }) }, ?_, ?_, hstocks, hframe⟩
  · have h2 : ¬(o.merchant_id ≠ mid) := by simp [hm]
    have h3 : ¬(o.status ≠ "pending") := by simp [hs]
    have h5 : ¬((batch_deduct_stock st.inv mid o.items "merchant").1 = false) := by
      simp [hb1]
    simp only [accept_order, ho, if_neg hcond1, if_neg h2, if_neg h3, hexp,
      Bool.false_eq_true, if_false, if_neg h5, SysState.setOrder]
  · refine findOrder_writeOrder_self st.orders oid _ o ho ?_
    have := findOrder_id st.orders oid o ho
    simpa using this

/-- Witness for C1: one pending order of 4 units of product p with stock
10; acceptance leaves stock 6 and an ACCEPTED order. -/
theorem claim_C1_witness :
    ∃ st', accept_order
        { inv := { products := [{ merchant_id := "m", product_id := "p",
                                  product_name := "P", stock_qty := 10 }], movements := [] },
          orders := [{ order_id := "o1", merchant_id := "m",
                       items := [{ product_id := "p", product_name := "P", quantity := some 4 }],
                       status := "pending", inventory_deducted := false,
                       expiry_time := some 100, cancellation_reason := none,
                       cancelled_by := none, approved_by_admin := none, timeline := [] }] }
        "o1" "m" none 7 none =
      (Except.ok
        { order_id := "o1", merchant_id := "m",
          items := [{ product_id := "p", product_name := "P", quantity := some 4 }],
          status := "accepted", inventory_deducted := true,
          expiry_time := some 100, cancellation_reason := none,
          cancelled_by := none, approved_by_admin := none,
          timeline := [{ status := "accepted", timestamp := 7,
                         note := "Order accepted by merchant", actor := "merchant" }] }, st') ∧
      findOrder st'.orders "o1" =
        some { order_id := "o1", merchant_id := "m",
               items := [{ product_id := "p", product_name := "P", quantity := some 4 }],
               status := "accepted", inventory_deducted := true,
               expiry_time := some 100, cancellation_reason := none,
               cancelled_by := none, approved_by_admin := none,
               timeline := [{ status := "accepted", timestamp := 7,
                              note := "Order accepted by merchant", actor := "merchant" }] } ∧
      (∀ it ∈ ([{ product_id := "p", product_name := "P", quantity := some 4 }] : List Item),
          st'.inv.stockOf "m" it.product_id =
            some ((InvState.stockOf
              { products := [{ merchant_id := "m", product_id := "p",
                               product_name := "P", stock_qty := 10 }], movements := [] }
              "m" it.product_id).getD 0 - it.quantity.getD 0)) ∧
      (∀ m' pid', ¬(m' = "m" ∧ pid' ∈
          ([{ product_id := "p", product_name := "P", quantity := some 4 }] : List Item).map
            Item.product_id) →
          st'.inv.stockOf m' pid' =
            InvState.stockOf
              { products := [{ merchant_id := "m", product_id := "p",
                               product_name := "P", stock_qty := 10 }], movements := [] }
              m' pid') :=
  claim_C1_accept_order
    { inv := { products := [{ merchant_id := "m", product_id := "p",
                              product_name := "P", stock_qty := 10 }], movements := [] },
      orders := [{ order_id := "o1", merchant_id := "m",
                   items := [{ product_id := "p", product_name := "P", quantity := some 4 }],
                   status := "pending", inventory_deducted := false,
                   expiry_time := some 100, cancellation_reason := none,
                   cancelled_by := none, approved_by_admin := none, timeline := [] }] }
    "o1" "m" none 7
    { order_id := "o1", merchant_id := "m",
      items := [{ product_id := "p", product_name := "P", quantity := some 4 }],
      status := "pending", inventory_deducted := false,
      expiry_time := some 100, cancellation_reason := none,
      cancelled_by := none, approved_by_admin := none, timeline := [] }
    (by decide) (by decide) (by decide) rfl rfl (by decide) (by decide) (by decide)

/-- C6: in `accept_order`, when the re-read inside the order-transition
lock observes a status other than PENDING (a concurrent writer changed it
after the stock was already debited), the operation adds back every
deducted quantity, raises a validation error, and writes neither status
ACCEPTED nor `inventory_deducted = true`: the stored order keeps the
concurrent status `ns`, its original flag, and its original timeline.  The
mirrored `approve_order_admin` behaves the same with the set
{PENDING, REVIEW}. -/
theorem claim_C6_race_rollback :
    (∀ (st : SysState) (oid mid : String) (note : Option String) (now : ℤ) (ns : String)
        (o : Order),
      oid ≠ "" → mid ≠ "" →
      findOrder st.orders oid = some o →
      o.merchant_id = mid → o.status = "pending" → orderExpiredAt o now = false →
      (o.items.map Item.product_id).Nodup →
      (∀ it ∈ o.items, itemOk st.inv mid it) →
      ns ≠ "pending" →
      ∃ msg st', accept_order st oid mid note now (some ns) = (Except.error msg, st') ∧
        (∀ m' pid', st'.inv.stockOf m' pid' = st.inv.stockOf m' pid') ∧
        findOrder st'.orders oid = some { o with status := ns }) ∧
    (∀ (st : SysState) (oid admin : String) (note : Option String) (now : ℤ) (ns : String)
        (o : Order),
      oid ≠ "" → admin ≠ "" →
      findOrder st.orders oid = some o →
      o.merchant_id ≠ "" → (o.status = "pending" ∨ o.status = "review") →
      (o.items.map Item.product_id).Nodup →
      (∀ it ∈ o.items, itemOk st.inv o.merchant_id it) →
      ¬(ns = "pending" ∨ ns = "review") →
      ∃ msg st', approve_order_admin st oid admin note now (some ns) =
          (Except.error msg, st') ∧
        (∀ m' pid', st'.inv.stockOf m' pid' = st.inv.stockOf m' pid') ∧
        findOrder st'.orders oid = some { o with status := ns }) := by
  constructor
  · intro st oid mid note now ns o hoid hmid ho hm hs hexp hnd hok hns
    obtain ⟨hb1, hstocks, hframe⟩ :=
      batch_deduct_stock_success st.inv mid o.items "merchant" hnd hok
    have hcond1 : ¬(oid = "" ∨ mid = "") := by
      rintro (h | h)
      · exact hoid h
      · exact hmid h
    have h2 : ¬(o.merchant_id ≠ mid) := by simp [hm]
    have h3 : ¬(o.status ≠ "pending") := by simp [hs]
    have h5 : ¬((batch_deduct_stock st.inv mid o.items "merchant").1 = false) := by
      simp [hb1]
    have hoid_o : o.order_id = oid := findOrder_id st.orders oid o ho
    have hfind2 : findOrder (writeOrder st.orders oid
        (fun od => { od with status := ns })) oid = some { o with status := ns } :=
      findOrder_writeOrder_self st.orders oid _ o ho (by simpa using hoid_o)
    have h6 : ¬¬(({ o with status := ns } : Order).status ≠ "pending") := by
      simpa using hns
    refine ⟨"Order state changed mid-process. Inventory rolled back.",
      { inv := rollbackItems (batch_deduct_stock st.inv mid o.items "merchant").2.2 mid
          o.items "order_accept_race_condition_rollback" "merchant",
        orders := writeOrder st.orders oid (fun od => { od with status := ns }) },
      ?_, ?_, hfind2⟩
    · simp only [accept_order, ho, if_neg hcond1, if_neg h2, if_neg h3, hexp,
        Bool.false_eq_true, if_false, if_neg h5, SysState.setOrder, hfind2,
        if_pos (not_not.mp h6)]
    · intro m' pid'
      exact rollbackItems_restores mid "order_accept_race_condition_rollback" "merchant"
        o.items st.inv _ hnd hok hstocks hframe m' pid'
  · intro st oid admin note now ns o hoid hadmin ho hmer hsv hnd hok hnsv
    obtain ⟨hb1, hstocks, hframe⟩ :=
      batch_deduct_stock_success st.inv o.merchant_id o.items "admin" hnd hok
    have hcond1 : ¬(oid = "" ∨ admin = "") := by
      rintro (h | h)
      · exact hoid h
      · exact hadmin h
    have h3 : ¬¬(o.status = "pending" ∨ o.status = "review") := not_not_intro hsv
    have h5 : ¬((batch_deduct_stock st.inv o.merchant_id o.items "admin").1 = false) := by
      simp [hb1]
    have hoid_o : o.order_id = oid := findOrder_id st.orders oid o ho
    have hfind2 : findOrder (writeOrder st.orders oid
        (fun od => { od with status := ns })) oid = some { o with status := ns } :=
      findOrder_writeOrder_self st.orders oid _ o ho (by simpa using hoid_o)
    have h6 : ¬(({ o with status := ns } : Order).status = "pending" ∨
        ({ o with status := ns } : Order).status = "review") := by
      simpa using hnsv
    refine ⟨"Order state changed mid-process. Inventory rolled back.",
      { inv := rollbackItems (batch_deduct_stock st.inv o.merchant_id o.items "admin").2.2
          o.merchant_id o.items "admin_approve_race_condition_rollback" "admin",
        orders := writeOrder st.orders oid (fun od => { od with status := ns }) },
      ?_, ?_, hfind2⟩
    · simp only [approve_order_admin, ho, if_neg hcond1, if_neg hmer, if_neg h3,
        if_neg h5, SysState.setOrder, hfind2, if_pos h6]
    · intro m' pid'
      exact rollbackItems_restores o.merchant_id "admin_approve_race_condition_rollback"
        "admin" o.items st.inv _ hnd hok hstocks hframe m' pid'

/-- Witness for C6: a concurrent cancellation observed during accept (and
an expiry observed during admin approval) roll the stock back and leave
the order with the concurrent status. -/
theorem claim_C6_witness :
    (∃ msg st', accept_order
        { inv := { products := [{ merchant_id := "m", product_id := "p",
                                  product_name := "P", stock_qty := 10 }], movements := [] },
          orders := [{ order_id := "o1", merchant_id := "m",
                       items := [{ product_id := "p", product_name := "P", quantity := some 4 }],
                       status := "pending", inventory_deducted := false,
                       expiry_time := none, cancellation_reason := none,
                       cancelled_by := none, approved_by_admin := none, timeline := [] }] }
        "o1" "m" none 7 (some "cancelled") = (Except.error msg, st') ∧
      (∀ m' pid', st'.inv.stockOf m' pid' =
          InvState.stockOf
            { products := [{ merchant_id := "m", product_id := "p",
                             product_name := "P", stock_qty := 10 }], movements := [] }
            m' pid') ∧
      findOrder st'.orders "o1" =
        some { order_id := "o1", merchant_id := "m",
               items := [{ product_id := "p", product_name := "P", quantity := some 4 }],
               status := "cancelled", inventory_deducted := false,
               expiry_time := none, cancellation_reason := none,
               cancelled_by := none, approved_by_admin := none, timeline := [] }) ∧
    (∃ msg st', approve_order_admin
        { inv := { products := [{ merchant_id := "m", product_id := "p",
                                  product_name := "P", stock_qty := 10 }], movements := [] },
          orders := [{ order_id := "o2", merchant_id := "m",
                       items := [{ product_id := "p", product_name := "P", quantity := some 4 }],
                       status := "review", inventory_deducted := false,
                       expiry_time := none, cancellation_reason := none,
                       cancelled_by := none, approved_by_admin := none, timeline := [] }] }
        "o2" "adm" none 7 (some "expired") = (Except.error msg, st') ∧
      (∀ m' pid', st'.inv.stockOf m' pid' =
          InvState.stockOf
            { products := [{ merchant_id := "m", product_id := "p",
                             product_name := "P", stock_qty := 10 }], movements := [] }
            m' pid') ∧
      findOrder st'.orders "o2" =
        some { order_id := "o2", merchant_id := "m",
               items := [{ product_id := "p", product_name := "P", quantity := some 4 }],
               status := "expired", inventory_deducted := false,
               expiry_time := none, cancellation_reason := none,
               cancelled_by := none, approved_by_admin := none, timeline := [] }) :=
  ⟨claim_C6_race_rollback.1
      { inv := { products := [{ merchant_id := "m", product_id := "p",
                                product_name := "P", stock_qty := 10 }], movements := [] },
        orders := [{ order_id := "o1", merchant_id := "m",
                     items := [{ product_id := "p", product_name := "P", quantity := some 4 }],
                     status := "pending", inventory_deducted := false,
                     expiry_time := none, cancellation_reason := none,
                     cancelled_by := none, approved_by_admin := none, timeline := [] }] }
      "o1" "m" none 7 "cancelled"
      { order_id := "o1", merchant_id := "m",
        items := [{ product_id := "p", product_name := "P", quantity := some 4 }],
        status := "pending", inventory_deducted := false,
        expiry_time := none, cancellation_reason := none,
        cancelled_by := none, approved_by_admin := none, timeline := [] }
      (by decide) (by decide) rfl rfl rfl (by decide) (by decide) (by decide) (by decide),
   claim_C6_race_rollback.2
      { inv := { products := [{ merchant_id := "m", product_id := "p",
                                product_name := "P", stock_qty := 10 }], movements := [] },
        orders := [{ order_id := "o2", merchant_id := "m",
                     items := [{ product_id := "p", product_name := "P", quantity := some 4 }],
                     status := "review", inventory_deducted := false,
                     expiry_time := none, cancellation_reason := none,
                     cancelled_by := none, approved_by_admin := none, timeline := [] }] }
      "o2" "adm" none 7 "expired"
      { order_id := "o2", merchant_id := "m",
        items := [{ product_id := "p", product_name := "P", quantity := some 4 }],
        status := "review", inventory_deducted := false,
        expiry_time := none, cancellation_reason := none,
        cancelled_by := none, approved_by_admin := none, timeline := [] }
      (by decide) (by decide) rfl (by decide) (by decide) (by decide) (by decide) (by decide)⟩

/-- C8: `expire_order` is idempotent.  On a pending-class order (status
`pending`, or the legacy pending status `pending_confirmation`) it performs
exactly one transition to EXPIRED, appending exactly one EXPIRED timeline
entry; the second call returns the already-expired order unchanged with the
state untouched and no error; and on any order whose status is not
pending-class it is a logged no-op returning the order unchanged. -/
theorem claim_C8_expire_idempotent (st : SysState) (oid : String) (now now2 : ℤ)
    (o : Order) (hoid : oid ≠ "")
    (ho : findOrder st.orders oid = some o)
    (hp : o.status = "pending" ∨ o.status = "pending_confirmation") :
    (∃ o' st', expire_order st oid now = (Except.ok (some o'), st') ∧
      o'.status = "expired" ∧
      o'.timeline = o.timeline ++
        [{ status := "expired", timestamp := now,
           note := "Order expired due to no merchant response", actor := "system" }] ∧
      findOrder st'.orders oid = some o' ∧
      expire_order st' oid now2 = (Except.ok (some o'), st')) ∧
    (∀ (st2 : SysState) (oid2 : String) (now3 : ℤ) (o2 : Order),
      oid2 ≠ "" → findOrder st2.orders oid2 = some o2 →
      ¬(o2.status = "pending" ∨ o2.status = "pending_confirmation") →
      expire_order st2 oid2 now3 = (Except.ok (some o2), st2)) := by
  constructor
  · have hoid_o : o.order_id = oid := findOrder_id st.orders oid o ho
    have hfind2 : findOrder (writeOrder st.orders oid (fun _ =>
        { o with status := "expired",
                 timeline := o.timeline ++
                   [{ status := "expired", timestamp := now,
                      note := "Order expired due to no merchant response",
                      actor := "system" }] })) oid =
        some { o with
                 status := "expired",
                 timeline := o.timeline ++
                   [{ status := "expired", timestamp := now,
                      note := "Order expired due to no merchant response",
                      actor := "system" }] } :=
      findOrder_writeOrder_self st.orders oid _ o ho (by simpa using hoid_o)
    refine ⟨{ o with
                status := "expired",
                timeline := o.timeline ++
                  [{ status := "expired", timestamp := now,
                     note := "Order expired due to no merchant response",
                     actor := "system" }] },
      st.setOrder oid (fun _ =>
        { o with status := "expired",
                 timeline := o.timeline ++
                   [{ status := "expired", timestamp := now,
                      note := "Order expired due to no merchant response",
                      actor := "system" }] }), ?_, rfl, rfl, ?_, ?_⟩
    · rw [expire_order, if_neg hoid, ho]
      simp only [if_pos hp]
    · exact hfind2
    · rw [expire_order, if_neg hoid]
      simp only [SysState.setOrder, hfind2]
      rw [if_neg (by simp)]
  · intro st2 oid2 now3 o2 hoid2 ho2 hnp
    rw [expire_order, if_neg hoid2, ho2]
    simp only [if_neg hnp]

/-- Witness for C8: expiring a pending order twice yields one EXPIRED
transition with one timeline entry; the second call is a no-op. -/
theorem claim_C8_witness :
    ∃ o' st', expire_order
        { inv := { products := [], movements := [] },
          orders := [{ order_id := "o1", merchant_id := "m", items := [],
                       status := "pending", inventory_deducted := false,
                       expiry_time := some 100, cancellation_reason := none,
                       cancelled_by := none, approved_by_admin := none, timeline := [] }] }
        "o1" 120 = (Except.ok (some o'), st') ∧
      o'.status = "expired" ∧
      o'.timeline = ([] : List TimelineEntry) ++
        [{ status := "expired", timestamp := 120,
           note := "Order expired due to no merchant response", actor := "system" }] ∧
      findOrder st'.orders "o1" = some o' ∧
      expire_order st' "o1" 150 = (Except.ok (some o'), st') :=
  (claim_C8_expire_idempotent
    { inv := { products := [], movements := [] },
      orders := [{ order_id := "o1", merchant_id := "m", items := [],
                   status := "pending", inventory_deducted := false,
                   expiry_time := some 100, cancellation_reason := none,
                   cancelled_by := none, approved_by_admin := none, timeline := [] }] }
    "o1" 120 150
    { order_id := "o1", merchant_id := "m", items := [],
      status := "pending", inventory_deducted := false,
      expiry_time := some 100, cancellation_reason := none,
      cancelled_by := none, approved_by_admin := none, timeline := [] }
    (by decide) rfl (Or.inl rfl)).1

/-- C5: evaluation of `cancel_order` at the claim's scenario, exhibiting
the bug.  Order o1 is ACCEPTED with `inventory_deducted = true` and one
line of 4 units of product p (stock 6).  Cancelling adds the 4 units back
(stock 10) and sets status CANCELLED as the claim states, but
`inventory_deducted` remains TRUE: the code checks the rollback outcomes
with `r.get("success")` although `update_quantity` returns plain booleans,
so the check raises `AttributeError`, the surrounding `except` swallows it,
`inventory_returned` stays false, and the flag is never reset. -/
theorem claim_C5_cancel_eval :
    (cancel_order
        { inv := { products := [{ merchant_id := "m", product_id := "p",
                                  product_name := "P", stock_qty := 6 }], movements := [] },
          orders := [{ order_id := "o1", merchant_id := "m",
                       items := [{ product_id := "p", product_name := "P", quantity := some 4 }],
                       status := "accepted", inventory_deducted := true,
                       expiry_time := none, cancellation_reason := none,
                       cancelled_by := none, approved_by_admin := none, timeline := [] }] }
        "o1" "customer request" "customer" 50).2.inv.stockOf "m" "p" = some 10 ∧
    (findOrder (cancel_order
        { inv := { products := [{ merchant_id := "m", product_id := "p",
                                  product_name := "P", stock_qty := 6 }], movements := [] },
          orders := [{ order_id := "o1", merchant_id := "m",
                       items := [{ product_id := "p", product_name := "P", quantity := some 4 }],
                       status := "accepted", inventory_deducted := true,
                       expiry_time := none, cancellation_reason := none,
                       cancelled_by := none, approved_by_admin := none, timeline := [] }] }
        "o1" "customer request" "customer" 50).2.orders "o1").map Order.status =
      some "cancelled" ∧
    (findOrder (cancel_order
        { inv := { products := [{ merchant_id := "m", product_id := "p",
                                  product_name := "P", stock_qty := 6 }], movements := [] },
          orders := [{ order_id := "o1", merchant_id := "m",
                       items := [{ product_id := "p", product_name := "P", quantity := some 4 }],
                       status := "accepted", inventory_deducted := true,
                       expiry_time := none, cancellation_reason := none,
                       cancelled_by := none, approved_by_admin := none, timeline := [] }] }
        "o1" "customer request" "customer" 50).2.orders "o1").map Order.inventory_deducted =
      some true := by
  refine ⟨?_, ?_, ?_⟩ <;>
    norm_num +decide [cancel_order, rollbackItems, update_quantity, findProduct,
      writeStockList, InvState.stockOf, ratAbs, findOrder, writeOrder]

/-! ### C9: reminder selection -/

theorem findDueReminder_some (intervals sent : List ℚ) (elapsed : ℚ) (i : ℚ)
    (hsorted : List.Pairwise (· ≤ ·) intervals)
    (h : findDueReminder intervals sent elapsed = some i) :
    i ∈ intervals ∧ i ≤ elapsed ∧ i ∉ sent ∧
      ∀ j ∈ intervals, j ≤ elapsed → j ∉ sent → i ≤ j := by
  induction intervals with
  | nil => simp [findDueReminder] at h
  | cons a rest ih =>
    rw [List.pairwise_cons] at hsorted
    obtain ⟨ha, hrest⟩ := hsorted
    by_cases hcond : a ≤ elapsed ∧ a ∉ sent
    · rw [findDueReminder, if_pos hcond] at h
      injection h with h
      subst h
      refine ⟨List.mem_cons_self _ _, hcond.1, hcond.2, ?_⟩
      intro j hj _ _
      rcases List.mem_cons.mp hj with rfl | hj
      · exact le_refl _
      · exact ha j hj
    · rw [findDueReminder, if_neg hcond] at h
      obtain ⟨hmem, hle, hnot, hmin⟩ := ih hrest h
      refine ⟨List.mem_cons_of_mem _ hmem, hle, hnot, ?_⟩
      intro j hj hjle hjnot
      rcases List.mem_cons.mp hj with rfl | hj
      · exact absurd ⟨hjle, hjnot⟩ hcond
      · exact hmin j hj hjle hjnot

theorem findDueReminder_none (intervals sent : List ℚ) (elapsed : ℚ)
    (h : findDueReminder intervals sent elapsed = none) :
    ∀ j ∈ intervals, j ≤ elapsed → j ∈ sent := by
  induction intervals with
  | nil => simp
  | cons a rest ih =>
    by_cases hcond : a ≤ elapsed ∧ a ∉ sent
    · rw [findDueReminder, if_pos hcond] at h
      simp at h
    · rw [findDueReminder, if_neg hcond] at h
      intro j hj hjle
      rcases List.mem_cons.mp hj with rfl | hj
      · by_contra hjn
        exact hcond ⟨hjle, hjn⟩
      · exact ih h j hj hjle

/-- C9: one scheduler reminder cycle for one order sends at most one
reminder: the smallest configured offset that is due (its elapsed-hours
threshold reached) and not yet in the order's sent-reminders set.  The
offset is recorded (appended once, `$addToSet` style) only when the send
succeeded; on send failure or when nothing is due the sent set is
unchanged; and an offset already recorded is never selected again. -/
theorem claim_C9_reminder_cycle (intervals sent : List ℚ) (elapsed : ℚ) (send_ok : Bool)
    (hsorted : List.Pairwise (· ≤ ·) intervals) :
    (∀ i, (check_and_process_reminders intervals sent elapsed send_ok).1 = some i →
        i ∈ intervals ∧ i ≤ elapsed ∧ i ∉ sent ∧
        ∀ j ∈ intervals, j ≤ elapsed → j ∉ sent → i ≤ j) ∧
    ((check_and_process_reminders intervals sent elapsed send_ok).1 = none →
        (check_and_process_reminders intervals sent elapsed send_ok).2 = sent ∧
        ∀ j ∈ intervals, j ≤ elapsed → j ∈ sent) ∧
    (send_ok = false → (check_and_process_reminders intervals sent elapsed send_ok).2 = sent) ∧
    (∀ i, (check_and_process_reminders intervals sent elapsed send_ok).1 = some i →
        send_ok = true →
        (check_and_process_reminders intervals sent elapsed send_ok).2 = sent ++ [i]) := by
  refine ⟨?_, ?_, ?_, ?_⟩
  · intro i hi
    cases hf : findDueReminder intervals sent elapsed with
    | none => rw [check_and_process_reminders, hf] at hi; simp at hi
    | some i0 =>
      rw [check_and_process_reminders, hf] at hi
      cases send_ok <;> simp at hi <;> subst hi <;>
        exact findDueReminder_some intervals sent elapsed i0 hsorted hf
  · intro hnone
    cases hf : findDueReminder intervals sent elapsed with
    | none =>
      rw [check_and_process_reminders, hf]
      exact ⟨rfl, findDueReminder_none intervals sent elapsed hf⟩
    | some i0 =>
      rw [check_and_process_reminders, hf] at hnone
      cases send_ok <;> simp at hnone
  · rintro rfl
    cases hf : findDueReminder intervals sent elapsed with
    | none => rw [check_and_process_reminders, hf]
    | some i0 => rw [check_and_process_reminders, hf]; simp
  · intro i hi hok
    subst hok
    cases hf : findDueReminder intervals sent elapsed with
    | none => rw [check_and_process_reminders, hf] at hi; simp at hi
    | some i0 =>
      rw [check_and_process_reminders, hf] at hi
      simp at hi
      subst hi
      obtain ⟨_, _, hnot, _⟩ := findDueReminder_some intervals sent elapsed i0 hsorted hf
      rw [check_and_process_reminders, hf]
      simp [addToSet, hnot]

/-- Witness for C9: offsets [2, 6, 24] with 2 already sent and 7 hours
elapsed: the cycle selects 6 and records it after a successful send. -/
theorem claim_C9_witness :
    (∀ i, (check_and_process_reminders [2, 6, 24] [2] 7 true).1 = some i →
        i ∈ ([2, 6, 24] : List ℚ) ∧ i ≤ 7 ∧ i ∉ ([2] : List ℚ) ∧
        ∀ j ∈ ([2, 6, 24] : List ℚ), j ≤ 7 → j ∉ ([2] : List ℚ) → i ≤ j) ∧
    ((check_and_process_reminders [2, 6, 24] [2] 7 true).1 = none →
        (check_and_process_reminders [2, 6, 24] [2] 7 true).2 = [2] ∧
        ∀ j ∈ ([2, 6, 24] : List ℚ), j ≤ 7 → j ∈ ([2] : List ℚ)) ∧
    (true = false → (check_and_process_reminders [2, 6, 24] [2] 7 true).2 = [2]) ∧
    (∀ i, (check_and_process_reminders [2, 6, 24] [2] 7 true).1 = some i →
        true = true →
        (check_and_process_reminders [2, 6, 24] [2] 7 true).2 = [2] ++ [i]) :=
  claim_C9_reminder_cycle [2, 6, 24] [2] 7 true (by decide)

end Vyaapaarai
